import Mathlib

/-!
Shallow embedding of the decklist parsing and organization engine of the
obsidian-mtg plugin (src/renderer.ts), together with theorems settling the
claims about it.  Each definition mirrors the corresponding TypeScript
function; comments give the source location.  JavaScript strings are
modelled as Lean `String`/`List Char`; the regular expressions of the
source are modelled by explicit scanning functions with the same
leftmost-match backtracking semantics on the character classes they use.
-/

set_option maxRecDepth 4000

namespace Mtg

/-- JavaScript regex whitespace class for the ASCII range (the `\s` class of
`lineMatchRE`, `setCodesRE`, `blankLineRE` and of `String.prototype.trim`);
the non-ASCII members of `\s` (NBSP, Unicode space separators) are outside
the model. -/
def jsWS (c : Char) : Bool :=
  c == ' ' || c == '\t' || c == '\n' || c == '\r' || c == '\x0b' || c == '\x0c'

/-- JavaScript `String.prototype.trim` on the modelled whitespace class. -/
def jsTrim (s : String) : String :=
  String.mk (((s.data.dropWhile (fun c => jsWS c)).reverse.dropWhile (fun c => jsWS c)).reverse)

/-- Prefix test on character lists (structural, so that closed evaluations
reduce in the kernel; the core `String` operations are defined by
well-founded recursion and do not). -/
def startsWithList : List Char → List Char → Bool
  | _, [] => true
  | [], _ :: _ => false
  | c :: cs, p :: ps => c == p && startsWithList cs ps

/-- Substring test on character lists (JS `String.prototype.includes`). -/
def containsL : List Char → List Char → Bool
  | [], pat => pat.isEmpty
  | c :: cs, pat => startsWithList (c :: cs) pat || containsL cs pat

/-- JavaScript `String.prototype.includes(pat)` for a nonempty pattern. -/
def containsSub (s pat : String) : Bool := containsL s.data pat.data

/-- Worker of `splitOnL`: while `skip` is positive the characters of an
already-recognized separator are being consumed; at `skip = 0` a separator
occurrence starting at the current position closes the current segment. -/
def splitGo (pat : List Char) : List Char → Nat → List Char → List (List Char)
  | [], _, acc => [acc.reverse]
  | c :: cs, skip, acc =>
    match skip with
    | skip2 + 1 => splitGo pat cs skip2 acc
    | 0 =>
      if startsWithList (c :: cs) pat then acc.reverse :: splitGo pat cs (pat.length - 1) []
      else splitGo pat cs 0 (c :: acc)

/-- JavaScript `String.prototype.split(pat)` for a nonempty string pattern:
split on the non-overlapping leftmost occurrences. -/
def splitOnL (s pat : List Char) : List (List Char) :=
  if pat.isEmpty then [s] else splitGo pat s 0 []

/-- JavaScript `String.prototype.replace(pat, "")` with a string pattern:
only the first occurrence is removed. -/
def replaceFirstL (s pat : List Char) : List Char :=
  match s with
  | [] => []
  | c :: cs =>
    if !pat.isEmpty && startsWithList (c :: cs) pat then (c :: cs).drop pat.length
    else c :: replaceFirstL cs pat

/-- String wrapper of `replaceFirstL`. -/
def replaceFirst (s pat : String) : String := String.mk (replaceFirstL s.data pat.data)

/-- ASCII lowercasing of one character (JS `toLowerCase`; non-ASCII case
mappings are outside the model). -/
def lowerCh (c : Char) : Char :=
  if 65 ≤ c.toNat ∧ c.toNat ≤ 90 then Char.ofNat (c.toNat + 32) else c

/-- ASCII lowercasing of a string. -/
def jsToLower (s : String) : String := String.mk (s.data.map lowerCh)

/-- Lexicographic order on character lists by code point (the model of the
default JS comparisons on strings). -/
def leList : List Char → List Char → Bool
  | [], _ => true
  | _ :: _, [] => false
  | a :: as, b :: bs => if a == b then leList as bs else decide (a.toNat < b.toNat)

/-- The regex digit class `\d`, i.e. exactly the ASCII digits. -/
def isDigitCh (c : Char) : Bool :=
  c == '0' || c == '1' || c == '2' || c == '3' || c == '4' ||
  c == '5' || c == '6' || c == '7' || c == '8' || c == '9'

/-- Numeric value of an ASCII digit (0 for non-digits). -/
def digitVal (c : Char) : Nat :=
  if c == '1' then 1 else if c == '2' then 2 else if c == '3' then 3 else
  if c == '4' then 4 else if c == '5' then 5 else if c == '6' then 6 else
  if c == '7' then 7 else if c == '8' then 8 else if c == '9' then 9 else 0

/-- JavaScript `parseInt` on a nonempty all-digit capture group. -/
def digitsToNat (l : List Char) : Nat :=
  l.foldl (fun n c => n * 10 + digitVal c) 0

/-- Association-list lookup, first matching key wins (JS object property read,
with insertion-ordered keys). -/
def assocLookup {α : Type} [DecidableEq α] {β : Type} (m : List (α × β)) (k : α) : Option β :=
  match m with
  | [] => none
  | (k2, v) :: rest => if k2 = k then some v else assocLookup rest k

/-- Lookup with a default (JS `obj[k] || d`). -/
def assocLookupD {α : Type} [DecidableEq α] {β : Type} (m : List (α × β)) (k : α) (d : β) : β :=
  (assocLookup m k).getD d

/-- Association-list overwrite (JS `obj[k] = v`): an existing key keeps its
position, a new key is appended. -/
def assocSet {α : Type} [DecidableEq α] {β : Type} (m : List (α × β)) (k : α) (v : β) : List (α × β) :=
  match m with
  | [] => [(k, v)]
  | (k2, v2) :: rest => if k2 = k then (k2, v) :: rest else (k2, v2) :: assocSet rest k v

/-- JS `obj[k] = (obj[k] || 0) + v` on a numeric-valued object. -/
def addCount (m : List (String × Nat)) (k : String) (v : Nat) : List (String × Nat) :=
  match m with
  | [] => [(k, v)]
  | (k2, v2) :: rest => if k2 = k then (k2, v2 + v) :: rest else (k2, v2) :: addCount rest k v

/-- Line kinds of the `Line` interface of src/renderer.ts (the source
string "section" is rendered here as `sect` since `section` is a Lean
keyword). -/
inductive LineType where
  | card
  | sect
  | error
  | blank
  | comment
  | commander
  deriving DecidableEq, Repr

/-- The `Line` interface of src/renderer.ts.  Optional JS fields that are
always set on the variants that use them are given neutral defaults;
`globalCount` keeps its `null` marker as `none`. -/
structure Line where
  lineType : LineType
  cardCount : Nat := 0
  globalCount : Option Nat := none
  cardName : String := ""
  comments : List String := []
  errors : List String := []
  text : String := ""
  deriving DecidableEq, Repr

def isCardLine (l : Line) : Bool :=
  match l.lineType with | .card => true | _ => false

def isSectionLine (l : Line) : Bool :=
  match l.lineType with | .sect => true | _ => false

def isCommentLine (l : Line) : Bool :=
  match l.lineType with | .comment => true | _ => false

def isCommanderLine (l : Line) : Bool :=
  match l.lineType with | .commander => true | _ => false

/-- src/renderer.ts line 14: `COMMENT_DELIMITER = "#"`. -/
def COMMENT_DELIMITER : String := "#"

/-- The commander marker literal `*CMDR*` (src/renderer.ts line 1184). -/
def cmdrMarker : String := "*CMDR*"

/-- The comment-line test prefix `COMMENT_DELIMITER + " "` of src/renderer.ts
line 1176, as a character list. -/
def commentStartL : List Char := (COMMENT_DELIMITER ++ " ").data

/-- src/renderer.ts line 12. -/
def DEFAULT_DECK_SECTION_NAME : String := "Deck:"

/-- src/renderer.ts line 13. -/
def DEFAULT_LIST_SECTION_NAME : String := "Cards:"

/-- Test of `blankLineRE = /^\s+$/` combined with the emptiness check of
parseLines (`!line.length || line.match(blankLineRE)`): true exactly when
every character is whitespace (vacuously for the empty line). -/
def isBlankLine (s : String) : Bool := s.data.all jsWS

/-- Test of `headingMatchRE = /^[^[0-9|#]/` (src/renderer.ts line 30): the
first character exists and is none of `[`, a digit, `|`, `#`. -/
def isHeadingLine (s : String) : Bool :=
  match s.data with
  | [] => false
  | c :: _ => !(c == '[' || isDigitCh c || c == '|' || c == '#')

/-- Attempt to match `lineMatchRE = /(\d+)x?\s(.*)/` anchored at the head of
`cs`: a nonempty maximal digit run, an optional literal `x`, one whitespace
character, then the rest of the line (`.` stops at a newline).  Shortening
the greedy `\d+` can never rescue a failed match here (the exposed character
would be a digit, matching neither `x` nor `\s`), so only the `x?`
backtracking is materialised. -/
def matchCountAt (cs : List Char) : Option (List Char × String) :=
  if (cs.takeWhile isDigitCh).isEmpty then none
  else
    match cs.drop (cs.takeWhile isDigitCh).length with
    | 'x' :: c :: rest =>
      if jsWS c then
        some (cs.takeWhile isDigitCh, String.mk (rest.takeWhile (fun c2 => !(c2 == '\n'))))
      else none
    | c :: rest =>
      if jsWS c then
        some (cs.takeWhile isDigitCh, String.mk (rest.takeWhile (fun c2 => !(c2 == '\n'))))
      else none
    | [] => none

/-- Leftmost match of `lineMatchRE` (unanchored JS `String.prototype.match`):
try every start position left to right. -/
def scanLineMatch : List Char → Option (List Char × String)
  | [] => none
  | c :: cs =>
    match matchCountAt (c :: cs) with
    | some r => some r
    | none => scanLineMatch cs

/-- Capture groups of `line.match(lineMatchRE)` (src/renderer.ts line 26):
`some (countDigits, name)` on success. -/
def lineMatchRE (s : String) : Option (List Char × String) := scanLineMatch s.data

/-- The regex class `[A-Za-z0-9]` of `setCodesRE`. -/
def isAlnumCh (c : Char) : Bool := c.isAlpha || isDigitCh c

/-- Length of a match of `setCodesRE = /(\([A-Za-z0-9]{3}\)\s\d+)/` anchored
at the head of `cs` (the trailing `\d+` is greedy). -/
def matchSetCodeLen (cs : List Char) : Option Nat :=
  match cs with
  | '(' :: a :: b :: c :: ')' :: w :: rest =>
    if isAlnumCh a && isAlnumCh b && isAlnumCh c && jsWS w then
      let ds := rest.takeWhile isDigitCh
      if ds.isEmpty then none else some (6 + ds.length)
    else none
  | _ => none

/-- JavaScript `line.replace(setCodesRE, "")`: remove the leftmost match of
the set-code pattern, if any. -/
def removeFirstSetCode : List Char → List Char
  | [] => []
  | c :: cs =>
    match matchSetCodeLen (c :: cs) with
    | some n => (c :: cs).drop n
    | none => c :: removeFirstSetCode cs

/-- The regex class `[\w| ,']` of `lineWithSetCodes`. -/
def wordClassCh (c : Char) : Bool :=
  c.isAlpha || isDigitCh c || c == '_' || c == '|' || c == ' ' || c == ',' || c == '\x27'

/-- Whether a character segment can be split as `\s+ [\w| ,']* \s+`.
Because the space character belongs to both classes, this holds exactly when
the segment starts and ends with whitespace and, after stripping the maximal
whitespace runs at both ends, only class characters remain (an all-whitespace
segment needs length at least 2). -/
def isWsClassSeg (cs : List Char) : Bool :=
  match cs with
  | [] => false
  | c :: _ =>
    jsWS c &&
      (let rest := cs.dropWhile (fun c2 => jsWS c2)
       if rest.isEmpty then decide (cs.length ≥ 2)
       else
         let rrev := rest.reverse
         jsWS (rrev.headD 'a') && (rrev.dropWhile (fun c2 => jsWS c2)).all wordClassCh)

/-- Existence of a completion of `lineWithSetCodes` after the `(\d+)x?` part:
some split point where the segment before it matches `\s+[\w| ,']*\s+` and a
set-code match starts right after. -/
def gateTail (cs : List Char) : Bool :=
  (List.range cs.length).any (fun j =>
    isWsClassSeg (cs.take (j + 1)) && (matchSetCodeLen (cs.drop (j + 1))).isSome)

/-- Attempt of `lineWithSetCodes` with the digit group anchored at `cs`. -/
def gateFrom (cs : List Char) : Bool :=
  let ds := cs.takeWhile isDigitCh
  if ds.isEmpty then false
  else
    let afterD := cs.drop ds.length
    gateTail afterD ||
      (match afterD with
       | 'x' :: r => gateTail r
       | _ => false)

/-- Unanchored truthiness test of
`lineWithSetCodes = /(\d+)x?\s+([\w| ,']*)\s+(\([A-Za-z0-9]{3}\)\s\d+)/`
(src/renderer.ts line 28), used only as a boolean gate at line 1211. -/
def gateScan : List Char → Bool
  | [] => false
  | c :: cs => gateFrom (c :: cs) || gateScan cs

def lineWithSetCodes (s : String) : Bool := gateScan s.data

/-- Modelled from the spec: the Identity Normalizer `nameToId` lives in
src/collection.ts, which is not under src/; per spec section 4.1 it
lowercases the whole string and, when the separator `//` occurs, keeps only
the (trimmed) part before its first occurrence. -/
def nameToId (name : String) : String :=
  let lower := jsToLower name
  match splitOnL lower.data (['/', '/']) with
  | [] => lower
  | [_] => lower
  | x :: _ => jsTrim (String.mk x)

/-- The set-code stripping step of parseLines (src/renderer.ts lines
1210-1215): applied only when the `lineWithSetCodes` gate matches. -/
def stripSetCodesIfMatched (line : String) : String :=
  if lineWithSetCodes line then jsTrim (String.mk (removeFirstSetCode line.data)) else line

/-- The text fed to the final card grammar match (src/renderer.ts lines
1208-1227): when the original line contains `#`, the first `#`-segment of
the ORIGINAL line overwrites the set-code-stripped text. -/
def cardLineBase (line : String) : String :=
  if containsL line.data COMMENT_DELIMITER.data then
    String.mk ((splitOnL line.data COMMENT_DELIMITER.data).headD line.data)
  else stripSetCodesIfMatched line

/-- The comment fragments collected at src/renderer.ts lines 1218-1224. -/
def cardLineComments (line : String) : List String :=
  if containsL line.data COMMENT_DELIMITER.data then
    (splitOnL line.data COMMENT_DELIMITER.data).tail.map String.mk
  else []

/-- Capture groups of the final card grammar match of parseLines. -/
def cardLineParts (line : String) : Option (List Char × String) :=
  lineMatchRE (cardLineBase line)

/-- One iteration of the `rawLines.map` body of `parseLines`
(src/renderer.ts lines 1159-1260).  `cardCounts.isEmpty` plays the role of
`shouldSkipGlobalCounts` (computed once per document from the same data). -/
def classifyLine (cardCounts : List (String × Nat)) (line : String) : Line :=
  if isBlankLine line then { lineType := .blank }
  else if isHeadingLine line then { lineType := .sect, text := line }
  else if startsWithList line.data commentStartL then
    { lineType := .comment, comments := [line] }
  else
    match
      (if containsSub line cmdrMarker then lineMatchRE (jsTrim (replaceFirst line cmdrMarker))
       else none) with
    | some (_, cardName) =>
      { lineType := .commander, cardCount := 1,
        globalCount :=
          if cardCounts.isEmpty then none
          else some (assocLookupD cardCounts (nameToId cardName) 0),
        cardName := cardName }
    | none =>
      match cardLineParts line with
      | none => { lineType := .error, errors := ["invalid line: " ++ line] }
      | some (ds, cardName) =>
        { lineType := .card,
          cardCount := digitsToNat ds,
          globalCount :=
            if cardCounts.isEmpty then none
            else some (assocLookupD cardCounts (nameToId cardName) 0),
          cardName := cardName,
          comments := cardLineComments line,
          errors := if cardName == "" then ["Unable to parse card name from: " ++ line] else [] }

/-- `parseLines` (src/renderer.ts lines 1151-1261). -/
def parseLines (rawLines : List String) (cardCounts : List (String × Nat)) : List Line :=
  rawLines.map (classifyLine cardCounts)

/-- Modelled from the spec: `MAX_SCRYFALL_BATCH_SIZE` is imported from
src/scryfall.ts, which is not under src/; spec section 6 fixes the maximum
batch size at 75 identities per call. -/
def MAX_SCRYFALL_BATCH_SIZE : Nat := 75

/-- The `forEach` loop of `fetchCardDataFromScryfall` (src/renderer.ts lines
1281-1288), run without the initial `batches.push(currentBatch)`: returns
the completed batches in order together with the final `currentBatch`. -/
def scryfallBatchLoop : List String → List (List String) → List String →
    (List (List String) × List String)
  | [], completed, current => (completed, current)
  | n :: ns, completed, current =>
    if current.length = MAX_SCRYFALL_BATCH_SIZE then
      scryfallBatchLoop ns (completed ++ [current]) [nameToId n]
    else
      scryfallBatchLoop ns completed (current ++ [nameToId n])

/-- The batch list that `fetchCardDataFromScryfall` passes to `Promise.all`
(src/renderer.ts lines 1277-1294).  In the source, `batches` is seeded with
a reference to `currentBatch` BEFORE the loop (line 1280); that array is the
first batch completed by the loop (or the final remainder when the loop
never completes a batch), so the submitted list is that first batch followed
by every completed batch and the final remainder (line 1290). -/
def scryfallBatches (distinctCardNames : List String) : List (List String) :=
  let r := scryfallBatchLoop distinctCardNames [] []
  let finished := r.1 ++ [r.2]
  finished.headD [] :: finished

/-- Append a line to the bucket of a key (JS
`if (!m[k]) m[k] = []; m[k].push(l)`, used by the sectioning loop and the
grouping helpers). -/
def addToBucket (m : List (String × List Line)) (k : String) (l : Line) :
    List (String × List Line) :=
  match m with
  | [] => [(k, [l])]
  | (k2, b) :: rest => if k2 = k then (k2, b ++ [l]) :: rest else (k2, b) :: addToBucket rest k l

/-- State of the sectioning loop of `renderDecklist` (src/renderer.ts lines
1331-1351): the current section name, the `sections` name list (duplicates
kept, in push order) and the `linesBySection` object. -/
structure SecState where
  current : String
  sections : List String
  buckets : List (String × List Line)
  deriving DecidableEq, Repr

/-- Body of the `parsedLines.forEach` sectioning loop for indices past the
`idx == 0` special case (src/renderer.ts lines 1342-1350).  A Section line
only pushes its name; the bucket is created lazily by the first non-section
line that lands in it. -/
def sectionStep (defaultName : String) (st : SecState) (l : Line) : SecState :=
  if l.lineType = .sect then
    let name := if l.text == "" then defaultName else l.text
    { st with current := name, sections := st.sections ++ [name] }
  else
    { st with buckets := addToBucket st.buckets st.current l }

/-- The sectioning state before the loop runs: the `idx == 0` special case
of src/renderer.ts lines 1338-1341 pushes the default section name when the
first line is not a heading. -/
def initialSecState (ls : List Line) (defaultName : String) : SecState :=
  match ls with
  | [] => { current := defaultName, sections := [], buckets := [] }
  | l :: _ =>
    if l.lineType = .sect then { current := defaultName, sections := [], buckets := [] }
    else { current := defaultName, sections := [defaultName], buckets := [] }

/-- The sectioning phase of `renderDecklist` (src/renderer.ts lines
1326-1351). -/
def groupBySections (ls : List Line) (defaultName : String) :
    List String × List (String × List Line) :=
  ((ls.foldl (sectionStep defaultName) (initialSecState ls defaultName)).sections,
   (ls.foldl (sectionStep defaultName) (initialSecState ls defaultName)).buckets)

/-- The `sections.forEach` body of the commander-extraction phase
(src/renderer.ts lines 1373-1383).  `linesBySection[sectionName]` is
dereferenced with `.filter`, so a section name without a bucket raises a
TypeError; this is modelled as `none`. -/
def extractLoop (m : List (String × List Line)) :
    List String → List Line × List (String × List Line) →
    Option (List Line × List (String × List Line))
  | [], acc => some acc
  | s :: rest, acc =>
    match assocLookup m s with
    | none => none
    | some b =>
      extractLoop m rest
        (acc.1 ++ b.filter isCommanderLine,
         assocSet acc.2 s (b.filter (fun l => !isCommanderLine l)))

/-- The commander-extraction phase of `renderDecklist` for decklists
(src/renderer.ts lines 1368-1392): all Commander lines are moved into a
synthetic "Commander" section prepended to the section order; when none are
found the section order is unchanged. -/
def extractCommanders (sections : List String) (m : List (String × List Line)) :
    Option (List String × List (String × List Line)) :=
  match extractLoop m sections ([], []) with
  | none => none
  | some (cs, nm) =>
    if cs.isEmpty then some (sections, nm)
    else some ("Commander" :: sections, assocSet nm ("Commander") cs)

/-- The fields of the Scryfall `CardData` relevant to the engine; every
field is optional as in the JS object (`none` models a missing/undefined
field, and for `color_identity` the distinction between an absent field and
a present-but-empty array is load-bearing).  `cmc` is modelled as `Nat`. -/
structure CardData where
  name : Option String := none
  type_line : Option String := none
  cmc : Option Nat := none
  color_identity : Option (List Char) := none
  deriving DecidableEq, Repr

/-- `getCardTypeGroup` (src/renderer.ts lines 53-65) with the
`CARD_TYPE_GROUPS` table inlined in its iteration order (lines 41-51); an
absent or empty `type_line` is falsy and yields "Other". -/
def getCardTypeGroup (cardData : Option CardData) : String :=
  match cardData with
  | none => "Other"
  | some cd =>
    match cd.type_line with
    | none => "Other"
    | some tl =>
      if tl == "" then "Other"
      else
        let t := jsToLower tl
        if containsSub t ("creature") then "Creature"
        else if containsSub t ("instant") then "Instant"
        else if containsSub t ("sorcery") then "Sorcery"
        else if containsSub t ("artifact") then "Artifact"
        else if containsSub t ("enchantment") then "Enchantment"
        else if containsSub t ("planeswalker") then "Planeswalker"
        else if containsSub t ("land") then "Land"
        else if containsSub t ("battle") then "Battle"
        else "Other"

/-- Insertion of a character into an ascending list (for the JS default
`Array.prototype.sort()` on single-character strings, which orders by code
unit). -/
def insertCh (x : Char) : List Char → List Char
  | [] => [x]
  | y :: ys => if x.toNat ≤ y.toNat then x :: y :: ys else y :: insertCh x ys

def sortChars (l : List Char) : List Char := l.foldr insertCh []

/-- `getCardColorGroup` (src/renderer.ts lines 119-217): lands first, then
absent or empty color identity is "Colorless", then the sorted identity is
matched against the guild/shard tables. -/
def getCardColorGroup (cardData : Option CardData) : String :=
  if (match cardData with
      | some cd =>
        (match cd.type_line with
         | some tl => containsSub (jsToLower tl) ("land")
         | none => false)
      | none => false) then "Lands"
  else
    match cardData with
    | none => "Colorless"
    | some cd =>
      match cd.color_identity with
      | none => "Colorless"
      | some ci =>
        if ci.isEmpty then "Colorless"
        else
          let colors := sortChars ci
          match colors with
          | [a] =>
            if a == 'W' then "White" else if a == 'U' then "Blue"
            else if a == 'B' then "Black" else if a == 'R' then "Red"
            else if a == 'G' then "Green" else "Colorless"
          | [a, b] =>
            if a == 'U' && b == 'W' then "Azorius (W/U)"
            else if a == 'B' && b == 'W' then "Orzhov (W/B)"
            else if a == 'G' && b == 'W' then "Selesnya (W/G)"
            else if a == 'R' && b == 'W' then "Boros (W/R)"
            else if a == 'B' && b == 'U' then "Dimir (U/B)"
            else if a == 'G' && b == 'U' then "Simic (U/G)"
            else if a == 'R' && b == 'U' then "Izzet (U/R)"
            else if a == 'B' && b == 'G' then "Golgari (B/G)"
            else if a == 'B' && b == 'R' then "Rakdos (B/R)"
            else if a == 'G' && b == 'R' then "Gruul (R/G)"
            else "Multicolor"
          | [a, b, c] =>
            if a == 'G' && b == 'U' && c == 'W' then "Bant (G/W/U)"
            else if a == 'B' && b == 'U' && c == 'W' then "Esper (W/U/B)"
            else if a == 'B' && b == 'G' && c == 'R' then "Jund (B/R/G)"
            else if a == 'G' && b == 'R' && c == 'W' then "Naya (R/G/W)"
            else if a == 'B' && b == 'R' && c == 'U' then "Grixis (U/B/R)"
            else if a == 'B' && b == 'G' && c == 'W' then "Abzan (W/B/G)"
            else if a == 'G' && b == 'R' && c == 'U' then "Temur (G/U/R)"
            else if a == 'B' && b == 'R' && c == 'W' then "Mardu (R/W/B)"
            else if a == 'B' && b == 'G' && c == 'U' then "Sultai (B/G/U)"
            else if a == 'R' && b == 'U' && c == 'W' then "Jeskai (U/R/W)"
            else "Multicolor"
          | l =>
            if l.length = 4 then "Four-Color"
            else if l.length = 5 then "Five-Color"
            else "Multicolor"

/-- `groupCardsByColor` (src/renderer.ts lines 219-239). -/
def groupCardsByColor (cards : List Line) (cardDataById : List (String × CardData)) :
    List (String × List Line) :=
  cards.foldl
    (fun groups c =>
      if isCardLine c || isCommanderLine c then
        addToBucket groups (getCardColorGroup (assocLookup cardDataById (nameToId c.cardName))) c
      else groups)
    []

/-- `groupCardsByType` (src/renderer.ts lines 97-117). -/
def groupCardsByType (cards : List Line) (cardDataById : List (String × CardData)) :
    List (String × List Line) :=
  cards.foldl
    (fun groups c =>
      if isCardLine c || isCommanderLine c then
        addToBucket groups (getCardTypeGroup (assocLookup cardDataById (nameToId c.cardName))) c
      else groups)
    []

/-- `parseManaCost` (src/renderer.ts lines 67-69): `cardData?.cmc || 0`. -/
def parseManaCost (cardData : Option CardData) : Nat :=
  (cardData.bind (fun c => c.cmc)).getD 0

def lineCmc (d : List (String × CardData)) (l : Line) : Nat :=
  parseManaCost (assocLookup d (nameToId l.cardName))

/-- The comparator of `sortCardsByManaCost` (src/renderer.ts lines 71-95) as
a boolean "less or equal" relation; `localeCompare` on names is modelled as
code-point order.  Pairs where either side is not a card/commander line
compare equal (the comparator returns 0). -/
def manaCostLe (d : List (String × CardData)) (a b : Line) : Bool :=
  if (isCardLine a || isCommanderLine a) && (isCardLine b || isCommanderLine b) then
    if lineCmc d a = lineCmc d b then leList a.cardName.data b.cardName.data
    else decide (lineCmc d a < lineCmc d b)
  else true

def insertLineBy (le : Line → Line → Bool) (x : Line) : List Line → List Line
  | [] => [x]
  | y :: ys => if le x y then x :: y :: ys else y :: insertLineBy le x ys

/-- Deterministic model of JS `Array.prototype.sort(cmp)` (the engine's
claims never depend on the resulting order, only on membership). -/
def sortLinesBy (le : Line → Line → Bool) (ls : List Line) : List Line :=
  ls.foldr (insertLineBy le) []

/-- `sortCardsByManaCost` (src/renderer.ts lines 71-95). -/
def sortCardsByManaCost (cards : List Line) (d : List (String × CardData)) : List Line :=
  sortLinesBy (manaCostLe d) cards

/-- The comparator of the alphabetical group sort of the color-grouping path
(src/renderer.ts lines 1415-1417), `localeCompare` modelled as code-point
order. -/
def nameLe (a b : Line) : Bool := leList a.cardName.data b.cardName.data

/-- Composition of new section names (src/renderer.ts lines 1419-1423 and
1546-1550). -/
def mkGroupName (defaultName sectionName groupName : String) : String :=
  if sectionName == defaultName then groupName else sectionName ++ " - " ++ groupName

/-- The per-section accumulator update of the color-grouping
reorganization (src/renderer.ts lines 1399-1436): the section's Card lines
are grouped by color (each group sorted alphabetically) and written under
composed section names, and its Comment lines under a "...Comments" name. -/
def colorCardsAcc (d : List (String × CardData)) (defaultName s : String)
    (b : List Line) (acc : List (String × List Line)) : List (String × List Line) :=
  if (b.filter isCardLine).isEmpty then acc
  else
    (groupCardsByColor (b.filter isCardLine) d).foldl
      (fun a p => assocSet a (mkGroupName defaultName s p.1) (sortLinesBy nameLe p.2)) acc

def colorSectionAcc (d : List (String × CardData)) (defaultName s : String)
    (b : List Line) (acc : List (String × List Line)) : List (String × List Line) :=
  if (b.filter isCommentLine).isEmpty then colorCardsAcc d defaultName s b acc
  else
    assocSet (colorCardsAcc d defaultName s b acc) (mkGroupName defaultName s ("Comments"))
      (b.filter isCommentLine)

/-- The `sections.forEach` body of the color-grouping reorganization for
generic lists (src/renderer.ts lines 1396-1438).  The bucket of each listed
section is dereferenced with `.filter`, so a missing bucket (TypeError in
the source) is modelled as `none`. -/
def colorReorgLoop (m : List (String × List Line)) (d : List (String × CardData))
    (defaultName : String) :
    List String → List (String × List Line) → Option (List (String × List Line))
  | [], acc => some acc
  | s :: rest, acc =>
    match assocLookup m s with
    | none => none
    | some b => colorReorgLoop m d defaultName rest (colorSectionAcc d defaultName s b acc)

/-- The reorganized `linesBySection` of the generic-list color-grouping path
(src/renderer.ts lines 1394-1438); the subsequent color-priority ordering of
section names does not change the section map and is not modelled. -/
def colorReorg (sections : List String) (m : List (String × List Line))
    (d : List (String × CardData)) (defaultName : String) :
    Option (List (String × List Line)) :=
  colorReorgLoop m d defaultName sections []

/-- The per-section accumulator update of the type-grouping reorganization
(src/renderer.ts lines 1521-1562), for sections other than "Commander":
Card lines grouped by type (each group sorted by cost when `sortFlag`) and
Comment lines under a "...Comments" name. -/
def typeCardsAcc (d : List (String × CardData)) (defaultName s : String) (sortFlag : Bool)
    (b : List Line) (acc : List (String × List Line)) : List (String × List Line) :=
  if (b.filter isCardLine).isEmpty then acc
  else
    (groupCardsByType (b.filter isCardLine) d).foldl
      (fun a p =>
        assocSet a (mkGroupName defaultName s p.1)
          (if sortFlag then sortCardsByManaCost p.2 d else p.2)) acc

def typeSectionAcc (d : List (String × CardData)) (defaultName s : String) (sortFlag : Bool)
    (b : List Line) (acc : List (String × List Line)) : List (String × List Line) :=
  if (b.filter isCommentLine).isEmpty then typeCardsAcc d defaultName s sortFlag b acc
  else
    assocSet (typeCardsAcc d defaultName s sortFlag b acc) (mkGroupName defaultName s ("Comments"))
      (b.filter isCommentLine)

/-- The `sections.forEach` body of the type-grouping reorganization for
decklists (src/renderer.ts lines 1504-1563).  The "Commander" section is
passed through unchanged (lines 1516-1519); `sortFlag` is
`settings.decklist.sortByManaCost || settings.decklist.mobileMode`. -/
def typeReorgLoop (m : List (String × List Line)) (d : List (String × CardData))
    (defaultName : String) (sortFlag : Bool) :
    List String → List (String × List Line) → Option (List (String × List Line))
  | [], acc => some acc
  | s :: rest, acc =>
    if s == "Commander" then
      match assocLookup m s with
      | none => none
      | some b => typeReorgLoop m d defaultName sortFlag rest (assocSet acc s b)
    else
      match assocLookup m s with
      | none => none
      | some b =>
        typeReorgLoop m d defaultName sortFlag rest (typeSectionAcc d defaultName s sortFlag b acc)

/-- The reorganized `linesBySection` of the decklist type-grouping path
(src/renderer.ts lines 1504-1601); the subsequent type-order sorting of
section names does not change the section map and is not modelled. -/
def typeReorg (sections : List String) (m : List (String × List Line))
    (d : List (String × CardData)) (defaultName : String) (sortFlag : Bool) :
    Option (List (String × List Line)) :=
  typeReorgLoop m d defaultName sortFlag sections []

/-- One line's contribution to a section's card-count total: every Card
line adds `line.cardCount || 0` (src/renderer.ts lines 1837-1838); no other
line kind contributes. -/
def cardContribution (l : Line) : Nat :=
  if isCardLine l then l.cardCount else 0

/-- Per-section card-count total of the rendering loop. -/
def sectionTotalCount (b : List Line) : Nat :=
  (b.map cardContribution).sum

/-- Sum of `cardContribution` over a line sequence. -/
def cardSumLines (ls : List Line) : Nat :=
  (ls.map cardContribution).sum

/-- The keys of a section map, in insertion order. -/
def bucketKeys (m : List (String × List Line)) : List String :=
  m.map Prod.fst

/-- Sum of the per-bucket card totals over the entries of a section map. -/
def sumBuckets (m : List (String × List Line)) : Nat :=
  (m.map (fun pr => sectionTotalCount pr.2)).sum

/-- The card total the rendering loop computes for one listed section name
(a missing bucket would be a TypeError in the source; here it reads as the
empty bucket). -/
def lookupTotal (m : List (String × List Line)) (s : String) : Nat :=
  sectionTotalCount ((assocLookup m s).getD [])

/-- The overall card total of the summary section (src/renderer.ts lines
2245-2248): the section loop runs once per entry of the `sections` name
list (duplicated names are processed once per occurrence), and the totals
are summed. -/
def overallAggTotal (sections : List String) (m : List (String × List Line)) : Nat :=
  (sections.map (lookupTotal m)).sum

/-- One line's contribution to the statistics engine's `totalCards`: the
guard of src/renderer.ts line 400 requires a Card line with truthy name and
count. -/
def statCount (l : Line) : Nat :=
  if isCardLine l && !(l.cardName == "") && !(l.cardCount == 0) then l.cardCount else 0

/-- One Card line's contribution to `missingCardCounts` (src/renderer.ts
lines 1763-1789): `lineGlobalCount` is `-1` when `globalCount` is null and
the branch runs only when it is not `-1` and `cardCount` exceeds it, adding
`cardCount - globalCount` under the line's identity. -/
def missingStep (m : List (String × Nat)) (l : Line) : List (String × Nat) :=
  if isCardLine l then
    match l.globalCount with
    | none => m
    | some g => if g < l.cardCount then addCount m (nameToId l.cardName) (l.cardCount - g) else m
  else m

/-- The `missingCardCounts` map accumulated over the Card lines the
rendering loop visits, in visit order. -/
def missingCardCountsOf (ls : List Line) : List (String × Nat) :=
  ls.foldl missingStep []

/-- The Card lines the rendering loop visits: each entry of the `sections`
name list contributes its bucket in order (src/renderer.ts lines
1661-1690). -/
def processedLines (sections : List String) (m : List (String × List Line)) : List Line :=
  sections.flatMap (fun s => (assocLookup m s).getD [])

/-- Specification-side definition, following the amended claim: a Card
line's missing contribution to an identity is `max(0, cardCount -
globalCount)` when its `globalCount` is present, each line compared against
the full `globalCount` independently, and 0 when `globalCount` is absent
(Nat subtraction is the truncated `max(0, x - y)`). -/
def missingSpecContrib (id : String) (l : Line) : Nat :=
  if isCardLine l then
    match l.globalCount with
    | none => 0
    | some g => if nameToId l.cardName == id then l.cardCount - g else 0
  else 0

/-- Specification-side sum of per-line missing contributions for one
identity. -/
def missingSpecSum (ls : List Line) (id : String) : Nat :=
  (ls.map (missingSpecContrib id)).sum

/-- The `DeckStatistics` record (src/renderer.ts lines 292-297); the three
histograms are modelled as total functions defaulting to 0. -/
structure DeckStatistics where
  manaCurve : Nat → Nat
  typeDistribution : String → Nat
  colorDistribution : Char → Nat → Nat
  totalCards : Nat

/-- The cost key `cmc >= 7 ? 7 : cmc` with `cardData.cmc || 0`
(src/renderer.ts lines 412-413). -/
def cmcKey (cd : CardData) : Nat :=
  let c := cd.cmc.getD 0
  if c ≥ 7 then 7 else c

def bumpNat (f : Nat → Nat) (k v : Nat) : Nat → Nat :=
  fun k2 => if k2 = k then f k + v else f k2

def bumpStr (f : String → Nat) (k : String) (v : Nat) : String → Nat :=
  fun k2 => if k2 = k then f k + v else f k2

def bumpColor (f : Char → Nat → Nat) (c : Char) (k v : Nat) : Char → Nat → Nat :=
  fun c2 k2 => if c2 = c ∧ k2 = k then f c k + v else f c2 k2

/-- Body of the `lines.forEach` of `calculateDeckStatistics` (src/renderer.ts
lines 398-441).  The guard is the JS truthiness test
`line.lineType === "card" && line.cardName && line.cardCount`; the branch
`if (cardData.color_identity)` is JS truthiness of the ARRAY, so a
present-but-empty `color_identity` takes the forEach branch (adding
nothing), and only an absent one reaches the `C` channel. -/
def statsStep (cardDataById : List (String × CardData)) (st : DeckStatistics) (l : Line) :
    DeckStatistics :=
  if isCardLine l && !(l.cardName == "") && !(l.cardCount == 0) then
    let cardData := assocLookup cardDataById (nameToId l.cardName)
    let count := l.cardCount
    let st1 := { st with totalCards := st.totalCards + count }
    match cardData with
    | none => st1
    | some cd =>
      let cardType := getCardTypeGroup (some cd)
      let st2 :=
        if cardType == "Land" then st1
        else { st1 with manaCurve := bumpNat st1.manaCurve (cmcKey cd) count }
      let st3 := { st2 with typeDistribution := bumpStr st2.typeDistribution cardType count }
      if cardType == "Land" then st3
      else
        match cd.color_identity with
        | some colors =>
          { st3 with
            colorDistribution :=
              colors.foldl (fun f c => bumpColor f c (cmcKey cd) count) st3.colorDistribution }
        | none =>
          { st3 with colorDistribution := bumpColor st3.colorDistribution 'C' (cmcKey cd) count }
  else st

def initialStats : DeckStatistics :=
  { manaCurve := fun _ => 0, typeDistribution := fun _ => 0,
    colorDistribution := fun _ _ => 0, totalCards := 0 }

/-- `calculateDeckStatistics` (src/renderer.ts lines 382-449). -/
def calculateDeckStatistics (ls : List Line) (cardDataById : List (String × CardData)) :
    DeckStatistics :=
  ls.foldl (statsStep cardDataById) initialStats

/-! ## Helper predicates and concrete inputs for the claim theorems -/

/-- Pairwise property over the entries of a section map. -/
def pairsAll (Q : (String × List Line) → Prop) (m : List (String × List Line)) : Prop :=
  ∀ pr ∈ m, Q pr

/-- 160 distinct card names (two distinct lowercase letters each). -/
def c1Names : List String :=
  (List.range 160).map (fun i => String.mk [Char.ofNat (97 + i / 16), Char.ofNat (97 + i % 16)])

/-- The parse of the two-line source `"1 Forest\nSideboard:"`. -/
def c2Parsed : List Line := parseLines [("1 Forest"), ("Sideboard:")] []

def c3Line : String := "3 Forest (M21) 250 # note"

def c4Parsed : List Line := parseLines [("4 Forest"), ("1 Forest")] [("forest", 3)]

def c5Data : List (String × CardData) :=
  [("sol ring", { type_line := some "Artifact", cmc := some 2, color_identity := some [] })]

def c5Parsed : List Line := parseLines [("3 Sol Ring")] []

def c5DataAbsent : List (String × CardData) :=
  [("sol ring", { type_line := some "Artifact", cmc := some 2 })]

def c6Parsed : List Line := parseLines [("3 ")] []

def c6M : List (String × List Line) :=
  [("Deck:",
    [{ lineType := .card, cardCount := 3, globalCount := none, cardName := "",
       comments := [], errors := ["Unable to parse card name from: 3 "] }])]

def c9Line : String := "1 Forest (M21) 250 *CMDR*"

def atraxaLine : String := "1 Atraxa, Praetors\x27 Voice *CMDR*"

def c10Blank : Line := { lineType := .blank }

def c10Err : Line := { lineType := .error, errors := ["invalid line: 5"] }

def c10Parsed : List Line := parseLines [("Commander"), (""), ("5")] []

def c10M : List (String × List Line) := [("Commander", [c10Blank, c10Err])]

def w6Parsed : List Line := parseLines [("1 Forest"), ("2 Island")] []

def w6Secs : List String := ["Deck:"]

def w6M : List (String × List Line) :=
  [("Deck:",
    [{ lineType := .card, cardCount := 1, globalCount := none, cardName := "Forest" },
     { lineType := .card, cardCount := 2, globalCount := none, cardName := "Island" }])]

def w10Card : Line := { lineType := .card, cardCount := 1, globalCount := none, cardName := "Forest" }

def w10Comment : Line := { lineType := .comment, comments := ["# hello"] }

def w10Parsed : List Line := parseLines [("1 Forest"), ("# hello")] []

def w10Secs : List String := (groupBySections w10Parsed DEFAULT_LIST_SECTION_NAME).1

def w10M : List (String × List Line) := (groupBySections w10Parsed DEFAULT_LIST_SECTION_NAME).2

def w10Res : List (String × List Line) := [("Colorless", [w10Card]), ("Comments", [w10Comment])]

/-! ## Claim C1: Scryfall batch splitting -/

/-- C1: the claim says 160 distinct identities are fetched in exactly 3
calls of sizes 75, 75, 10 with no identity submitted twice.  Evaluating the
batching of `fetchCardDataFromScryfall` on 160 distinct names shows FOUR
fetch calls of sizes 75, 75, 75, 10, the first batch being submitted twice
(each batch still respects the 75 cap, and the stray initial
`batches.push(currentBatch)` is the slip). -/
theorem C1_batching_eval :
    (scryfallBatches c1Names).map (fun b => b.length) = [75, 75, 75, 10] ∧
    (scryfallBatches c1Names).headD [] = ((scryfallBatches c1Names).drop 1).headD [] ∧
    (scryfallBatches c1Names).length ≠ 3 := by
  refine ⟨by decide, by decide, by decide⟩

/-! ## Claim C2: trailing section heading -/

/-- C2: the claim says every Section-heading line opens a (possibly empty)
bucket, so the downstream steps never fail.  On a source whose final line is
a heading, the heading's name enters the section order but no bucket is
created, and the commander-extraction step dereferences the missing bucket
(a TypeError in the source, `none` in the model). -/
theorem C2_trailing_heading_eval :
    (groupBySections c2Parsed DEFAULT_DECK_SECTION_NAME).1 = ["Deck:", "Sideboard:"] ∧
    assocLookup (groupBySections c2Parsed DEFAULT_DECK_SECTION_NAME).2 ("Sideboard:") = none ∧
    extractCommanders (groupBySections c2Parsed DEFAULT_DECK_SECTION_NAME).1
      (groupBySections c2Parsed DEFAULT_DECK_SECTION_NAME).2 = none := by
  refine ⟨by decide, by decide, by decide⟩

/-! ## Claim C3: set code plus inline comment -/

/-- C3 counterexample: the claim says a line with both a set code and a
comment ends up with name "Forest"; the classifier instead leaves the set
code in the name, because the comment split runs on the ORIGINAL line text
and its first segment overwrites the set-code-stripped text. -/
theorem C3_counterexample :
    (classifyLine [] c3Line).lineType = LineType.card ∧
    (classifyLine [] c3Line).cardName = "Forest (M21) 250 " ∧
    (classifyLine [] c3Line).cardName ≠ "Forest" ∧
    containsSub (classifyLine [] c3Line).cardName ("(M21) 250") = true := by
  refine ⟨by decide, by decide, by decide, by decide⟩

/-- C3 amended: for a card line containing both a set code and an inline
comment, the comment split of the original text overwrites the set-code
stripping, so the resulting Card line keeps the set-code annotation in its
name while the comment is still captured: `"3 Forest (M21) 250 # note"`
yields count 3, name `"Forest (M21) 250 "` and the single comment
`" note"`. -/
theorem C3_setcode_comment :
    classifyLine [] c3Line =
      { lineType := .card, cardCount := 3, globalCount := none,
        cardName := "Forest (M21) 250 ", comments := [" note"], errors := [] } := by
  decide

/-! ## Claim C5: empty color identity in the statistics -/

/-- C5: the claim (and the spec) says a non-Land card with an EMPTY color
identity buckets its count under the synthetic Colorless channel at key
min(cost, 7).  The statistics guard `if (cardData.color_identity)` tests JS
truthiness of the array, and an empty array is truthy, so such a card adds
nothing to any color channel; only a card whose metadata LACKS the
`color_identity` field reaches the `C` channel.  Evaluation at a 3-copy
Artifact of cost 2 with `color_identity = []`: the card is counted in the
totals and the type distribution, yet `C` stays 0 at key 2 (while the same
card with the field absent yields 3). -/
theorem C5_empty_identity_eval :
    (calculateDeckStatistics c5Parsed c5Data).totalCards = 3 ∧
    (calculateDeckStatistics c5Parsed c5Data).typeDistribution ("Artifact") = 3 ∧
    (calculateDeckStatistics c5Parsed c5Data).colorDistribution 'C' 2 = 0 ∧
    (calculateDeckStatistics c5Parsed c5DataAbsent).colorDistribution 'C' 2 = 3 := by
  refine ⟨by decide, by decide, by decide, by decide⟩

/-! ## Claim C7: classification of "not a valid line" -/

/-- C7 counterexample: the claim says classifying `"not a valid line"`
yields an Error line; the heading rule fires first (its first character is
not a digit, `[`, `|` or `#`), so it is a Section line. -/
theorem C7_counterexample :
    (classifyLine [] ("not a valid line")).lineType ≠ LineType.error := by
  decide

/-- C7 amended: `"not a valid line"` is classified as a Section heading
carrying the original text verbatim (the leading-character rule makes any
line starting with a non-digit other than `[`, `|`, `#` a heading); a line
that does start with a digit but fails the card grammar, such as `"5"`,
yields the Error line whose message contains the original text. -/
theorem C7_heading_classification :
    classifyLine [] ("not a valid line") = { lineType := .sect, text := "not a valid line" } ∧
    classifyLine [] ("5") = { lineType := .error, errors := ["invalid line: 5"] } ∧
    containsSub ("invalid line: 5") ("5") = true := by
  refine ⟨by decide, by decide, by decide⟩

/-! ## Claim C8: card count lower bound -/

/-- C8 counterexample: the claim says every Card-classified line has
`cardCount >= 1` unless an error was recorded; the grammar accepts a zero
count, and `"0 Forest"` is a Card line with count 0 and no error. -/
theorem C8_counterexample :
    (classifyLine [] ("0 Forest")).lineType = LineType.card ∧
    (classifyLine [] ("0 Forest")).cardCount = 0 ∧
    (classifyLine [] ("0 Forest")).errors = [] := by
  refine ⟨by decide, by decide, by decide⟩

/-! ## Claim C9: commander lines -/

/-- C9 counterexample: the claim says a commander name is extracted with
set-code annotations and comments removed; the commander branch matches the
bare card regex on the stripped-and-trimmed remainder without set-code
stripping or comment splitting, so the set code stays in the name. -/
theorem C9_counterexample :
    (classifyLine [] c9Line).lineType = LineType.commander ∧
    (classifyLine [] c9Line).cardName = "Forest (M21) 250" ∧
    (classifyLine [] c9Line).cardName ≠ "Forest" := by
  refine ⟨by decide, by decide, by decide⟩

/-! ## Claim C10: reorganized line kinds -/

/-- C10 counterexample: the claim says the reorganization carries only Card
and Comment lines, so no Blank or Error line appears in any reorganized
section.  A source with a user heading literally named "Commander" followed
by a blank line and an invalid line keeps both lines after type grouping,
because the type-grouping path passes the "Commander" section through
unchanged. -/
theorem C10_counterexample :
    extractCommanders (groupBySections c10Parsed DEFAULT_DECK_SECTION_NAME).1
        (groupBySections c10Parsed DEFAULT_DECK_SECTION_NAME).2 =
      some (["Commander"], c10M) ∧
    typeReorg ["Commander"] c10M [] DEFAULT_DECK_SECTION_NAME false = some c10M ∧
    c10Blank.lineType = LineType.blank ∧
    c10Err.lineType = LineType.error := by
  refine ⟨by decide, by decide, by decide, by decide⟩

/-! ## Claim C4 counterexample -/

/-- C4 counterexample: two Card lines of 4 and 1 copies of Forest with a
collection count of 3.  The claim's formula `max(0, sum(cardCount) -
globalCount)` gives 2, but the render loop compares each line against the
full `globalCount` independently and records only `max(0,4-3) + max(0,1-3)
= 1`. -/
theorem C4_counterexample :
    assocLookup (missingCardCountsOf c4Parsed) ("forest") = some 1 ∧
    ¬ assocLookup (missingCardCountsOf c4Parsed) ("forest") = some ((4 + 1) - 3) := by
  refine ⟨by decide, by decide⟩

/-! ## Claim C9 amended theorem -/

/-- C9 amended: every line that reaches the commander check (not blank, not
a heading, not a comment) and contains the `*CMDR*` marker, whose remainder
after stripping the first marker occurrence and trimming matches the
card-line regex, is classified as a Commander line with `cardCount` forced
to 1 and with the regex's name capture taken VERBATIM — set-code
annotations and `#` comments are not removed from commander names (the
collection lookup uses that verbatim name). -/
theorem C9_commander_shape (cc : List (String × Nat)) (s : String) (ds : List Char) (nm : String)
    (h1 : isBlankLine s = false) (h2 : isHeadingLine s = false)
    (h3 : startsWithList s.data commentStartL = false)
    (h4 : containsSub s cmdrMarker = true)
    (h5 : lineMatchRE (jsTrim (replaceFirst s cmdrMarker)) = some (ds, nm)) :
    classifyLine cc s =
      { lineType := .commander, cardCount := 1,
        globalCount :=
          if cc.isEmpty then none else some (assocLookupD cc (nameToId nm) 0),
        cardName := nm } := by
  unfold classifyLine
  rw [h1, h2, h3, h4, h5]
  simp

/-- C9 witness: the hypotheses of `C9_commander_shape` hold at the claim's
example line, and the conclusion instantiates to a Commander line of count 1
named "Atraxa, Praetors' Voice". -/
theorem C9_commander_shape_witness :
    isBlankLine atraxaLine = false ∧
    containsSub atraxaLine cmdrMarker = true ∧
    classifyLine [] atraxaLine =
      { lineType := .commander, cardCount := 1, globalCount := none,
        cardName := "Atraxa, Praetors\x27 Voice" } :=
  ⟨by decide, by decide,
   C9_commander_shape [] atraxaLine (['1']) ("Atraxa, Praetors\x27 Voice")
     (by decide) (by decide) (by decide) (by decide) (by decide)⟩

/-! ## Claim C8 amended theorem -/

theorem matchCountAt_digits {cs ds : List Char} {nm : String}
    (h : matchCountAt cs = some (ds, nm)) :
    ds ≠ [] ∧ ds.all isDigitCh = true := by
  have hmain : matchCountAt cs = some (ds, nm) →
      ds = cs.takeWhile isDigitCh ∧ ¬(cs.takeWhile isDigitCh).isEmpty = true := by
    unfold matchCountAt
    split
    · intro hx; exact absurd hx (by simp)
    · rename_i hne
      split
      · split
        · intro hx
          exact ⟨((Prod.mk.injEq _ _ _ _).mp (Option.some.inj hx)).1.symm, hne⟩
        · intro hx; exact absurd hx (by simp)
      · split
        · intro hx
          exact ⟨((Prod.mk.injEq _ _ _ _).mp (Option.some.inj hx)).1.symm, hne⟩
        · intro hx; exact absurd hx (by simp)
      · intro hx; exact absurd hx (by simp)
  obtain ⟨hds, hne⟩ := hmain h
  subst hds
  exact ⟨by simpa [List.isEmpty_iff] using hne, List.all_takeWhile⟩

theorem scanStep (c : Char) (cs : List Char) :
    scanLineMatch (c :: cs) =
      match matchCountAt (c :: cs) with
      | some r => some r
      | none => scanLineMatch cs := rfl

theorem scanLineMatch_digits :
    ∀ (cs ds : List Char) (nm : String), scanLineMatch cs = some (ds, nm) →
      ds ≠ [] ∧ ds.all isDigitCh = true := by
  intro cs
  induction cs with
  | nil => intro ds nm h; exact Option.noConfusion h
  | cons c cs ih =>
    intro ds nm h
    rw [scanStep] at h
    cases hm : matchCountAt (c :: cs) with
    | none =>
      rw [hm] at h
      exact ih ds nm h
    | some r =>
      obtain ⟨d2, n2⟩ := r
      rw [hm] at h
      have h2 : some (d2, n2) = some (ds, nm) := h
      injection h2 with h3
      injection h3 with e1 e2
      subst e1
      subst e2
      exact matchCountAt_digits hm

theorem digits_fold_zero :
    ∀ (l : List Char) (n : Nat), l.foldl (fun n c => n * 10 + digitVal c) n = 0 →
      n = 0 ∧ ∀ c ∈ l, digitVal c = 0 := by
  intro l
  induction l with
  | nil => intro n h; simpa using h
  | cons c t ih =>
    intro n h
    rw [List.foldl_cons] at h
    obtain ⟨h1, h2⟩ := ih _ h
    have hn : n = 0 ∧ digitVal c = 0 := by omega
    refine ⟨hn.1, ?_⟩
    intro c2 hc2
    rcases List.mem_cons.mp hc2 with rfl | hmem
    · exact hn.2
    · exact h2 c2 hmem

theorem digitVal_zero_of_digit {c : Char} (h1 : isDigitCh c = true) (h2 : digitVal c = 0) :
    c = '0' := by
  simp only [isDigitCh, Bool.or_eq_true, beq_iff_eq] at h1
  rcases h1 with (((((((((rfl | rfl) | rfl) | rfl) | rfl) | rfl) | rfl) | rfl) | rfl) | rfl)
  · rfl
  all_goals exact absurd h2 (by decide)

theorem digitsToNat_zero_all_zeros {l : List Char} (hall : l.all isDigitCh = true)
    (hz : digitsToNat l = 0) : l.all (fun c => c == '0') = true := by
  have h := digits_fold_zero l 0 hz
  rw [List.all_eq_true]
  intro c hc
  rw [List.all_eq_true] at hall
  have := digitVal_zero_of_digit (hall c hc) (h.2 c hc)
  simp [this]

/-- Characterization of the Card branch: a line classified as a Card is
exactly the record built from the capture groups of `cardLineParts`. -/
theorem classifyLine_card (cc : List (String × Nat)) (s : String)
    (h : (classifyLine cc s).lineType = LineType.card) :
    ∃ ds nm, cardLineParts s = some (ds, nm) ∧
      classifyLine cc s =
        { lineType := .card, cardCount := digitsToNat ds,
          globalCount :=
            if cc.isEmpty then none else some (assocLookupD cc (nameToId nm) 0),
          cardName := nm, comments := cardLineComments s,
          errors :=
            if nm == "" then ["Unable to parse card name from: " ++ s] else [] } := by
  by_cases hb : isBlankLine s = true
  · exact absurd h (by simp [classifyLine, hb])
  by_cases hh : isHeadingLine s = true
  · exact absurd h (by simp [classifyLine, hb, hh])
  by_cases hcm : startsWithList s.data commentStartL = true
  · exact absurd h (by simp [classifyLine, hb, hh, hcm])
  by_cases hc : containsSub s cmdrMarker = true
  · cases hm : lineMatchRE (jsTrim (replaceFirst s cmdrMarker)) with
    | some r =>
      obtain ⟨d0, n0⟩ := r
      exact absurd h (by simp [classifyLine, hb, hh, hcm, hc, hm])
    | none =>
      cases hlp : cardLineParts s with
      | none => exact absurd h (by simp [classifyLine, hb, hh, hcm, hc, hm, hlp])
      | some r =>
        obtain ⟨ds, nm⟩ := r
        exact ⟨ds, nm, rfl, by simp [classifyLine, hb, hh, hcm, hc, hm, hlp]⟩
  · cases hlp : cardLineParts s with
    | none => exact absurd h (by simp [classifyLine, hb, hh, hcm, hc, hlp])
    | some r =>
      obtain ⟨ds, nm⟩ := r
      exact ⟨ds, nm, rfl, by simp [classifyLine, hb, hh, hcm, hc, hlp]⟩

/-- C8 amended: every line the classifier returns as a Card has its
`cardCount` equal to the numeric value of the nonempty all-digit count
capture of the card grammar, so `cardCount >= 1` unless that capture is a
run of zero digits — a zero count such as `"0 Forest"` is accepted as a
Card line without any recorded error, and recorded errors are unrelated to
the count. -/
theorem C8_count_grammar (cc : List (String × Nat)) (s : String)
    (h : (classifyLine cc s).lineType = LineType.card) :
    ∃ ds nm, cardLineParts s = some (ds, nm) ∧
      (classifyLine cc s).cardCount = digitsToNat ds ∧
      ds ≠ [] ∧ ds.all isDigitCh = true ∧
      (1 ≤ (classifyLine cc s).cardCount ∨ ds.all (fun c => c == '0') = true) := by
  obtain ⟨ds, nm, hparts, heq⟩ := classifyLine_card cc s h
  have hd := scanLineMatch_digits (cardLineBase s).data ds nm
    (by simpa [cardLineParts, lineMatchRE] using hparts)
  refine ⟨ds, nm, hparts, by rw [heq], hd.1, hd.2, ?_⟩
  rcases Nat.eq_zero_or_pos (digitsToNat ds) with hz | hp
  · exact Or.inr (digitsToNat_zero_all_zeros hd.2 hz)
  · exact Or.inl (by rw [heq]; exact hp)

/-- C8 witness: `C8_count_grammar` applied at the concrete Card line
`"0 Forest"`, whose capture is the zero digit. -/
theorem C8_count_grammar_witness :
    (classifyLine [] ("0 Forest")).lineType = LineType.card ∧
    (∃ ds nm, cardLineParts ("0 Forest") = some (ds, nm) ∧
      (classifyLine [] ("0 Forest")).cardCount = digitsToNat ds ∧
      ds ≠ [] ∧ ds.all isDigitCh = true ∧
      (1 ≤ (classifyLine [] ("0 Forest")).cardCount ∨
        ds.all (fun c => c == '0') = true)) :=
  ⟨by decide, C8_count_grammar [] ("0 Forest") (by decide)⟩

/-! ## Claim C4 amended theorem -/

theorem assocLookup_addCount_self (m : List (String × Nat)) (k : String) (v : Nat) :
    assocLookup (addCount m k v) k = some (assocLookupD m k 0 + v) := by
  induction m with
  | nil => simp [addCount, assocLookup, assocLookupD]
  | cons p rest ih =>
    obtain ⟨k2, v2⟩ := p
    by_cases hk : k2 = k
    · subst hk; simp [addCount, assocLookup, assocLookupD]
    · simp [addCount, assocLookup, hk, ih, assocLookupD]

theorem assocLookup_addCount_ne (m : List (String × Nat)) (k : String) (v : Nat)
    {q : String} (h : q ≠ k) :
    assocLookup (addCount m k v) q = assocLookup m q := by
  have hk : ¬(k = q) := fun e => h e.symm
  induction m with
  | nil => simp [addCount, assocLookup, hk]
  | cons p rest ih =>
    obtain ⟨k2, v2⟩ := p
    by_cases h2 : k2 = k
    · subst h2; simp [addCount, assocLookup, hk]
    · simp [addCount, assocLookup, h2, ih]

theorem missingStep_lookup (m : List (String × Nat)) (l : Line) (id : String) :
    assocLookup (missingStep m l) id =
      if missingSpecContrib id l = 0 then assocLookup m id
      else some (assocLookupD m id 0 + missingSpecContrib id l) := by
  unfold missingStep missingSpecContrib
  by_cases hcard : isCardLine l = true
  · rw [if_pos hcard, if_pos hcard]
    cases hg : l.globalCount with
    | none => simp
    | some g =>
      dsimp only
      by_cases hid : (nameToId l.cardName == id) = true
      · have hid2 : nameToId l.cardName = id := by simpa using hid
        rw [if_pos hid]
        by_cases hlt : g < l.cardCount
        · rw [if_pos hlt, if_neg (by omega), hid2, assocLookup_addCount_self]
        · rw [if_neg hlt, if_pos (by omega)]
      · rw [if_neg hid, if_pos rfl]
        have hne : id ≠ nameToId l.cardName := by
          intro e
          exact hid (by simp [e])
        by_cases hlt : g < l.cardCount
        · rw [if_pos hlt]
          exact assocLookup_addCount_ne m _ _ hne
        · rw [if_neg hlt]
  · rw [if_neg hcard, if_neg hcard]
    simp

theorem missingFold_lookup :
    ∀ (ls : List Line) (m : List (String × Nat)) (id : String),
      assocLookup (ls.foldl missingStep m) id =
        match assocLookup m id with
        | none =>
          if missingSpecSum ls id = 0 then none else some (missingSpecSum ls id)
        | some v => some (v + missingSpecSum ls id) := by
  intro ls
  induction ls with
  | nil =>
    intro m id
    cases h : assocLookup m id <;> simp [h, missingSpecSum]
  | cons l t ih =>
    intro m id
    rw [List.foldl_cons, ih (missingStep m l) id, missingStep_lookup]
    have hsum : missingSpecSum (l :: t) id =
        missingSpecContrib id l + missingSpecSum t id := by
      simp [missingSpecSum]
    rw [hsum]
    by_cases h0 : missingSpecContrib id l = 0
    · rw [if_pos h0, h0]
      cases hm : assocLookup m id <;> simp [hm]
    · rw [if_neg h0]
      cases hm : assocLookup m id <;>
        simp only [assocLookupD, hm, Option.getD] <;>
        (cases hs : decide (missingSpecContrib id l + missingSpecSum t id = 0) <;>
          simp_all <;> omega)

/-- C4 amended: for every sequence of rendered lines, the identity keyed
missing-count map of the render loop satisfies, for every identity, the
PER-LINE formula: its value is the sum over Card lines with that identity
and a present `globalCount` of `max(0, cardCount - globalCount)` — each
line compared against the full `globalCount` independently — and the
identity is absent from the map exactly when that sum is zero; lines with
an absent `globalCount` never contribute. -/
theorem C4_missing_per_line (ls : List Line) (id : String) :
    assocLookup (missingCardCountsOf ls) id =
      if missingSpecSum ls id = 0 then none else some (missingSpecSum ls id) := by
  have h := missingFold_lookup ls [] id
  simpa [missingCardCountsOf, assocLookup] using h

/-! ## Claim C10 amended theorem -/

theorem isCardLine_type {l : Line} (h : isCardLine l = true) : l.lineType = LineType.card := by
  cases hl : l.lineType
  case card => rfl
  all_goals simp [isCardLine, hl] at h

theorem isCommentLine_type {l : Line} (h : isCommentLine l = true) :
    l.lineType = LineType.comment := by
  cases hl : l.lineType
  case comment => rfl
  all_goals simp [isCommentLine, hl] at h

theorem mem_assocSet {α β : Type} [DecidableEq α] :
    ∀ (m : List (α × β)) (k : α) (v : β) (q : α × β),
      q ∈ assocSet m k v → q ∈ m ∨ q = (k, v) := by
  intro m k v
  induction m with
  | nil =>
    intro q hq
    rw [show assocSet ([] : List (α × β)) k v = [(k, v)] from rfl, List.mem_singleton] at hq
    exact Or.inr hq
  | cons p rest ih =>
    intro q hq
    obtain ⟨k2, v2⟩ := p
    by_cases hk : k2 = k
    · subst hk
      rw [show assocSet ((k2, v2) :: rest) k2 v = (k2, v) :: rest from by
            simp [assocSet]] at hq
      rcases List.mem_cons.mp hq with rfl | h2
      · exact Or.inr rfl
      · exact Or.inl (List.mem_cons_of_mem _ h2)
    · rw [show assocSet ((k2, v2) :: rest) k v = (k2, v2) :: assocSet rest k v from by
            simp [assocSet, hk]] at hq
      rcases List.mem_cons.mp hq with rfl | h2
      · exact Or.inl (List.mem_cons_self _ _)
      · rcases ih q h2 with h3 | h3
        · exact Or.inl (List.mem_cons_of_mem _ h3)
        · exact Or.inr h3

theorem pairsAll_assocSet {Q : (String × List Line) → Prop}
    (acc : List (String × List Line)) (k : String) (v : List Line)
    (hacc : pairsAll Q acc) (hkv : Q (k, v)) : pairsAll Q (assocSet acc k v) := by
  intro pr hpr
  rcases mem_assocSet acc k v pr hpr with h | rfl
  · exact hacc pr h
  · exact hkv

theorem pairsAll_assocSetFold {Q : (String × List Line) → Prop}
    (g : (String × List Line) → String) (h : (String × List Line) → List Line) :
    ∀ (ps acc : List (String × List Line)),
      pairsAll Q acc → (∀ p ∈ ps, Q (g p, h p)) →
      pairsAll Q (ps.foldl (fun a p => assocSet a (g p) (h p)) acc) := by
  intro ps
  induction ps with
  | nil => intro acc hacc _; simpa using hacc
  | cons p ps ih =>
    intro acc hacc hps
    rw [List.foldl_cons]
    exact ih _ (pairsAll_assocSet acc (g p) (h p) hacc (hps p (List.mem_cons_self _ _)))
      (fun q hq => hps q (List.mem_cons_of_mem _ hq))

theorem linesAll_addToBucket {P : Line → Prop} :
    ∀ (m : List (String × List Line)) (k : String) (l : Line),
      pairsAll (fun pr => ∀ x ∈ pr.2, P x) m → P l →
      pairsAll (fun pr => ∀ x ∈ pr.2, P x) (addToBucket m k l) := by
  intro m
  induction m with
  | nil =>
    intro k l _ hl pr hpr x hx
    rw [show addToBucket [] k l = [(k, [l])] from rfl, List.mem_singleton] at hpr
    subst hpr
    rw [List.mem_singleton] at hx
    subst hx
    exact hl
  | cons p rest ih =>
    intro k l hm hl
    obtain ⟨k2, b⟩ := p
    by_cases hk : k2 = k
    · subst hk
      intro pr hpr x hx
      rw [show addToBucket ((k2, b) :: rest) k2 l = (k2, b ++ [l]) :: rest from by
            simp [addToBucket]] at hpr
      rcases List.mem_cons.mp hpr with rfl | h2
      · rcases List.mem_append.mp hx with h3 | h3
        · exact hm (k2, b) (List.mem_cons_self _ _) x h3
        · rw [List.mem_singleton] at h3
          subst h3
          exact hl
      · exact hm pr (List.mem_cons_of_mem _ h2) x hx
    · intro pr hpr x hx
      rw [show addToBucket ((k2, b) :: rest) k l = (k2, b) :: addToBucket rest k l from by
            simp [addToBucket, hk]] at hpr
      rcases List.mem_cons.mp hpr with rfl | h2
      · exact hm (k2, b) (List.mem_cons_self _ _) x hx
      · exact ih k l (fun q hq => hm q (List.mem_cons_of_mem _ hq)) hl pr h2 x hx

theorem linesAll_groupFold {P : Line → Prop} (f : Line → String) :
    ∀ (cards : List Line) (acc : List (String × List Line)),
      (∀ c ∈ cards, P c) → pairsAll (fun pr => ∀ x ∈ pr.2, P x) acc →
      pairsAll (fun pr => ∀ x ∈ pr.2, P x)
        (cards.foldl
          (fun groups c =>
            if isCardLine c || isCommanderLine c then addToBucket groups (f c) c else groups)
          acc) := by
  intro cards
  induction cards with
  | nil => intro acc _ hacc; simpa using hacc
  | cons c cs ih =>
    intro acc hc hacc
    rw [List.foldl_cons]
    refine ih _ (fun x hx => hc x (List.mem_cons_of_mem _ hx)) ?_
    by_cases hcard : (isCardLine c || isCommanderLine c) = true
    · rw [if_pos hcard]
      exact linesAll_addToBucket acc (f c) c hacc (hc c (List.mem_cons_self _ _))
    · rw [if_neg hcard]
      exact hacc

theorem groupCardsByColor_members {P : Line → Prop} (cards : List Line)
    (d : List (String × CardData)) (h : ∀ c ∈ cards, P c) :
    pairsAll (fun pr => ∀ x ∈ pr.2, P x) (groupCardsByColor cards d) :=
  linesAll_groupFold (fun c => getCardColorGroup (assocLookup d (nameToId c.cardName)))
    cards [] h (fun pr hpr => absurd hpr (List.not_mem_nil pr))

theorem groupCardsByType_members {P : Line → Prop} (cards : List Line)
    (d : List (String × CardData)) (h : ∀ c ∈ cards, P c) :
    pairsAll (fun pr => ∀ x ∈ pr.2, P x) (groupCardsByType cards d) :=
  linesAll_groupFold (fun c => getCardTypeGroup (assocLookup d (nameToId c.cardName)))
    cards [] h (fun pr hpr => absurd hpr (List.not_mem_nil pr))

theorem mem_insertLineBy (le : Line → Line → Bool) (x : Line) :
    ∀ (ls : List Line) (y : Line), y ∈ insertLineBy le x ls → y = x ∨ y ∈ ls := by
  intro ls
  induction ls with
  | nil =>
    intro y hy
    rw [show insertLineBy le x [] = [x] from rfl, List.mem_singleton] at hy
    exact Or.inl hy
  | cons z zs ih =>
    intro y hy
    by_cases hle : le x z = true
    · rw [show insertLineBy le x (z :: zs) = x :: z :: zs from by simp [insertLineBy, hle]] at hy
      rcases List.mem_cons.mp hy with rfl | h2
      · exact Or.inl rfl
      · exact Or.inr h2
    · rw [show insertLineBy le x (z :: zs) = z :: insertLineBy le x zs from by
            simp [insertLineBy, hle]] at hy
      rcases List.mem_cons.mp hy with rfl | h2
      · exact Or.inr (List.mem_cons_self _ _)
      · rcases ih y h2 with h3 | h3
        · exact Or.inl h3
        · exact Or.inr (List.mem_cons_of_mem _ h3)

theorem mem_sortLinesBy (le : Line → Line → Bool) :
    ∀ (ls : List Line) (y : Line), y ∈ sortLinesBy le ls → y ∈ ls := by
  intro ls
  induction ls with
  | nil => intro y hy; simp [sortLinesBy] at hy
  | cons z zs ih =>
    intro y hy
    rw [show sortLinesBy le (z :: zs) = insertLineBy le z (sortLinesBy le zs) from rfl] at hy
    rcases mem_insertLineBy le z _ y hy with rfl | h2
    · exact List.mem_cons_self _ _
    · exact List.mem_cons_of_mem _ (ih y h2)

theorem colorSectionAcc_kinds (d : List (String × CardData)) (dn s : String) (b : List Line)
    (acc : List (String × List Line))
    (hacc : pairsAll
      (fun pr => ∀ x ∈ pr.2, x.lineType = LineType.card ∨ x.lineType = LineType.comment) acc) :
    pairsAll
      (fun pr => ∀ x ∈ pr.2, x.lineType = LineType.card ∨ x.lineType = LineType.comment)
      (colorSectionAcc d dn s b acc) := by
  have hgroups := groupCardsByColor_members (P := fun x => isCardLine x = true)
    (b.filter isCardLine) d (fun c hc => (List.mem_filter.mp hc).2)
  have h1 : pairsAll
      (fun pr => ∀ x ∈ pr.2, x.lineType = LineType.card ∨ x.lineType = LineType.comment)
      (colorCardsAcc d dn s b acc) := by
    unfold colorCardsAcc
    split
    · exact hacc
    · refine pairsAll_assocSetFold (fun p => mkGroupName dn s p.1)
        (fun p => sortLinesBy nameLe p.2) _ acc hacc ?_
      intro p hp x hx
      exact Or.inl (isCardLine_type (hgroups p hp x (mem_sortLinesBy nameLe p.2 x hx)))
  unfold colorSectionAcc
  split
  · exact h1
  · refine pairsAll_assocSet _ _ _ h1 ?_
    intro x hx
    exact Or.inr (isCommentLine_type (List.mem_filter.mp hx).2)

theorem typeSectionAcc_kinds (d : List (String × CardData)) (dn s : String) (sf : Bool)
    (b : List Line) (acc : List (String × List Line))
    (hacc : pairsAll
      (fun pr => pr.1 ≠ "Commander" →
        ∀ x ∈ pr.2, x.lineType = LineType.card ∨ x.lineType = LineType.comment) acc) :
    pairsAll
      (fun pr => pr.1 ≠ "Commander" →
        ∀ x ∈ pr.2, x.lineType = LineType.card ∨ x.lineType = LineType.comment)
      (typeSectionAcc d dn s sf b acc) := by
  have hgroups := groupCardsByType_members (P := fun x => isCardLine x = true)
    (b.filter isCardLine) d (fun c hc => (List.mem_filter.mp hc).2)
  have h1 : pairsAll
      (fun pr => pr.1 ≠ "Commander" →
        ∀ x ∈ pr.2, x.lineType = LineType.card ∨ x.lineType = LineType.comment)
      (typeCardsAcc d dn s sf b acc) := by
    unfold typeCardsAcc
    split
    · exact hacc
    · refine pairsAll_assocSetFold (fun p => mkGroupName dn s p.1)
        (fun p => if sf then sortCardsByManaCost p.2 d else p.2) _ acc hacc ?_
      intro p hp _ x hx
      have hx2 : x ∈ (if sf then sortCardsByManaCost p.2 d else p.2) := hx
      have hxin : x ∈ p.2 := by
        by_cases hsf : sf = true
        · rw [if_pos hsf] at hx2
          exact mem_sortLinesBy (manaCostLe d) p.2 x hx2
        · rw [if_neg hsf] at hx2
          exact hx2
      exact Or.inl (isCardLine_type (hgroups p hp x hxin))
  unfold typeSectionAcc
  split
  · exact h1
  · refine pairsAll_assocSet _ _ _ h1 ?_
    intro _ x hx
    exact Or.inr (isCommentLine_type (List.mem_filter.mp hx).2)

theorem colorReorgLoop_kinds :
    ∀ (secs : List String) (m : List (String × List Line)) (d : List (String × CardData))
      (dn : String) (acc res : List (String × List Line)),
      pairsAll
        (fun pr => ∀ x ∈ pr.2, x.lineType = LineType.card ∨ x.lineType = LineType.comment) acc →
      colorReorgLoop m d dn secs acc = some res →
      pairsAll
        (fun pr => ∀ x ∈ pr.2, x.lineType = LineType.card ∨ x.lineType = LineType.comment)
        res := by
  intro secs
  induction secs with
  | nil =>
    intro m d dn acc res hacc hres
    obtain rfl : acc = res := Option.some.inj hres
    exact hacc
  | cons s rest ih =>
    intro m d dn acc res hacc hres
    rw [show colorReorgLoop m d dn (s :: rest) acc =
          (match assocLookup m s with
           | none => none
           | some b => colorReorgLoop m d dn rest (colorSectionAcc d dn s b acc)) from rfl] at hres
    cases hb : assocLookup m s with
    | none =>
      rw [hb] at hres
      exact Option.noConfusion hres
    | some b =>
      rw [hb] at hres
      exact ih m d dn _ res (colorSectionAcc_kinds d dn s b acc hacc) hres

theorem typeReorgLoop_kinds :
    ∀ (secs : List String) (m : List (String × List Line)) (d : List (String × CardData))
      (dn : String) (sf : Bool) (acc res : List (String × List Line)),
      pairsAll
        (fun pr => pr.1 ≠ "Commander" →
          ∀ x ∈ pr.2, x.lineType = LineType.card ∨ x.lineType = LineType.comment) acc →
      typeReorgLoop m d dn sf secs acc = some res →
      pairsAll
        (fun pr => pr.1 ≠ "Commander" →
          ∀ x ∈ pr.2, x.lineType = LineType.card ∨ x.lineType = LineType.comment)
        res := by
  intro secs
  induction secs with
  | nil =>
    intro m d dn sf acc res hacc hres
    obtain rfl : acc = res := Option.some.inj hres
    exact hacc
  | cons s rest ih =>
    intro m d dn sf acc res hacc hres
    rw [show typeReorgLoop m d dn sf (s :: rest) acc =
          (if s == "Commander" then
            match assocLookup m s with
            | none => none
            | some b => typeReorgLoop m d dn sf rest (assocSet acc s b)
          else
            match assocLookup m s with
            | none => none
            | some b =>
              typeReorgLoop m d dn sf rest (typeSectionAcc d dn s sf b acc)) from rfl] at hres
    by_cases hcs : (s == "Commander") = true
    · rw [if_pos hcs] at hres
      cases hb : assocLookup m s with
      | none =>
        rw [hb] at hres
        exact Option.noConfusion hres
      | some b =>
        rw [hb] at hres
        have hs : s = "Commander" := by simpa using hcs
        refine ih m d dn sf _ res ?_ hres
        refine pairsAll_assocSet acc s b hacc ?_
        intro hne
        exact absurd hs hne
    · rw [if_neg hcs] at hres
      cases hb : assocLookup m s with
      | none =>
        rw [hb] at hres
        exact Option.noConfusion hres
      | some b =>
        rw [hb] at hres
        exact ih m d dn sf _ res (typeSectionAcc_kinds d dn s sf b acc hacc) hres

/-- C10 amended: in the generic-list color-grouping path, every line of
every reorganized section is a Card or a Comment line (Blank, Error and
Commander lines appear in no section); in the decklist type-grouping path
the same holds for every section EXCEPT the one named "Commander", which is
passed through unchanged and may retain Blank and Error lines when the
source contains a user heading literally named "Commander". -/
theorem C10_reorg_kinds :
    (∀ (secs : List String) (m : List (String × List Line)) (d : List (String × CardData))
        (dn : String) (res : List (String × List Line)),
        colorReorg secs m d dn = some res →
        ∀ pr ∈ res, ∀ l ∈ pr.2,
          l.lineType = LineType.card ∨ l.lineType = LineType.comment) ∧
    (∀ (secs : List String) (m : List (String × List Line)) (d : List (String × CardData))
        (dn : String) (sf : Bool) (res : List (String × List Line)),
        typeReorg secs m d dn sf = some res →
        ∀ pr ∈ res, pr.1 ≠ "Commander" →
          ∀ l ∈ pr.2,
            l.lineType = LineType.card ∨ l.lineType = LineType.comment) := by
  constructor
  · intro secs m d dn res hres
    exact colorReorgLoop_kinds secs m d dn [] res
      (fun pr hpr => absurd hpr (List.not_mem_nil pr)) hres
  · intro secs m d dn sf res hres pr hpr hne
    exact typeReorgLoop_kinds secs m d dn sf [] res
      (fun q hq => absurd hq (List.not_mem_nil q)) hres pr hpr hne

/-- C10 witness: the color-grouping half of `C10_reorg_kinds` applied to a
concrete generic list with one card and one comment. -/
theorem C10_reorg_kinds_witness :
    colorReorg w10Secs w10M [] DEFAULT_LIST_SECTION_NAME = some w10Res ∧
    ("Colorless", [w10Card]) ∈ w10Res ∧ w10Card ∈ [w10Card] ∧
    (w10Card.lineType = LineType.card ∨ w10Card.lineType = LineType.comment) :=
  ⟨by decide, by decide, by decide,
   C10_reorg_kinds.1 w10Secs w10M [] DEFAULT_LIST_SECTION_NAME w10Res (by decide)
     ("Colorless", [w10Card]) (by decide) w10Card (by decide)⟩

/-! ## Claim C6 amended theorem -/

theorem sum_map_congr {α : Type} (l : List α) (f g : α → Nat)
    (h : ∀ a ∈ l, f a = g a) : (l.map f).sum = (l.map g).sum := by
  induction l with
  | nil => rfl
  | cons a t ih =>
    rw [List.map_cons, List.map_cons, List.sum_cons, List.sum_cons,
      h a (List.mem_cons_self _ _), ih (fun x hx => h x (List.mem_cons_of_mem _ hx))]

theorem lookup_assocSet {α β : Type} [DecidableEq α] :
    ∀ (m : List (α × β)) (k : α) (v : β) (q : α),
      assocLookup (assocSet m k v) q = if q = k then some v else assocLookup m q := by
  intro m k v
  induction m with
  | nil =>
    intro q
    by_cases hq : q = k
    · subst hq; simp [assocSet, assocLookup]
    · have hk : ¬ k = q := fun e => hq e.symm
      simp [assocSet, assocLookup, hq, hk]
  | cons p rest ih =>
    intro q
    obtain ⟨k2, v2⟩ := p
    by_cases h2 : k2 = k
    · subst h2
      have hset : assocSet ((k2, v2) :: rest) k2 v = (k2, v) :: rest := by
        simp [assocSet]
      rw [hset]
      by_cases hq : q = k2
      · subst hq; simp [assocLookup]
      · have hk : ¬ k2 = q := fun e => hq e.symm
        simp [assocLookup, hq, hk]
    · have hset : assocSet ((k2, v2) :: rest) k v = (k2, v2) :: assocSet rest k v := by
        simp [assocSet, h2]
      rw [hset]
      by_cases hq : k2 = q
      · have hqk : ¬ q = k := fun e => h2 (hq.trans e)
        simp [assocLookup, hq, hqk]
      · simp [assocLookup, hq, ih]

theorem assocLookup_mem {α β : Type} [DecidableEq α] :
    ∀ (m : List (α × β)) (k : α) (v : β), assocLookup m k = some v → (k, v) ∈ m := by
  intro m k v
  induction m with
  | nil => intro h; exact Option.noConfusion h
  | cons p rest ih =>
    intro h
    obtain ⟨k2, v2⟩ := p
    by_cases h2 : k2 = k
    · subst h2
      rw [show assocLookup ((k2, v2) :: rest) k2 = some v2 from by simp [assocLookup]] at h
      obtain rfl : v2 = v := Option.some.inj h
      exact List.mem_cons_self _ _
    · rw [show assocLookup ((k2, v2) :: rest) k = assocLookup rest k from by
            simp [assocLookup, h2]] at h
      exact List.mem_cons_of_mem _ (ih h)

theorem lookup_none_of_not_mem_keys :
    ∀ (m : List (String × List Line)) (k : String),
      k ∉ bucketKeys m → assocLookup m k = none := by
  intro m k
  induction m with
  | nil => intro _; rfl
  | cons p rest ih =>
    intro hk
    obtain ⟨k2, b⟩ := p
    simp only [bucketKeys, List.map_cons, List.mem_cons, not_or] at hk
    have hne : ¬ k2 = k := fun e => hk.1 e.symm
    rw [show assocLookup ((k2, b) :: rest) k = assocLookup rest k from by
          simp [assocLookup, hne]]
    exact ih hk.2

theorem isCommanderLine_type {l : Line} (h : isCommanderLine l = true) :
    l.lineType = LineType.commander := by
  cases hl : l.lineType
  case commander => rfl
  all_goals simp [isCommanderLine, hl] at h

theorem isCommanderLine_false {l : Line} (h : l.lineType ≠ LineType.commander) :
    isCommanderLine l = false := by
  cases hl : l.lineType
  case commander => exact absurd hl h
  all_goals simp [isCommanderLine, hl]

theorem isCardLine_false_of_sect {l : Line} (h : l.lineType = LineType.sect) :
    isCardLine l = false := by
  simp [isCardLine, h]

theorem bucketKeys_addToBucket :
    ∀ (m : List (String × List Line)) (k : String) (l : Line),
      bucketKeys (addToBucket m k l) =
        if k ∈ bucketKeys m then bucketKeys m else bucketKeys m ++ [k] := by
  intro m k l
  induction m with
  | nil => simp [addToBucket, bucketKeys]
  | cons p rest ih =>
    obtain ⟨k2, b⟩ := p
    by_cases h2 : k2 = k
    · subst h2
      simp [addToBucket, bucketKeys]
    · rw [show addToBucket ((k2, b) :: rest) k l = (k2, b) :: addToBucket rest k l from by
            simp [addToBucket, h2]]
      simp only [bucketKeys, List.map_cons] at ih ⊢
      rw [ih]
      have hne : ¬ k = k2 := fun e => h2 e.symm
      by_cases hk : k ∈ rest.map Prod.fst
      · rw [if_pos hk, if_pos (by simp [hk])]
      · rw [if_neg hk, if_neg (by simp [hne, hk])]
        simp

theorem sumBuckets_addToBucket :
    ∀ (m : List (String × List Line)) (k : String) (l : Line),
      sumBuckets (addToBucket m k l) = sumBuckets m + cardContribution l := by
  intro m k l
  induction m with
  | nil => simp [addToBucket, sumBuckets, sectionTotalCount]
  | cons p rest ih =>
    obtain ⟨k2, b⟩ := p
    by_cases h2 : k2 = k
    · subst h2
      rw [show addToBucket ((k2, b) :: rest) k2 l = (k2, b ++ [l]) :: rest from by
            simp [addToBucket]]
      simp only [sumBuckets, List.map_cons, List.sum_cons, sectionTotalCount,
        List.map_append, List.sum_append, List.map_cons, List.map_nil, List.sum_cons,
        List.sum_nil]
      omega
    · rw [show addToBucket ((k2, b) :: rest) k l = (k2, b) :: addToBucket rest k l from by
            simp [addToBucket, h2]]
      simp only [sumBuckets, List.map_cons, List.sum_cons] at ih ⊢
      omega

theorem sectionStep_sect (dn : String) (st : SecState) (l : Line)
    (h : l.lineType = LineType.sect) :
    sectionStep dn st l =
      { st with
        current := if l.text == "" then dn else l.text,
        sections := st.sections ++ [if l.text == "" then dn else l.text] } := by
  simp [sectionStep, h]

theorem sectionStep_other (dn : String) (st : SecState) (l : Line)
    (h : ¬ l.lineType = LineType.sect) :
    sectionStep dn st l = { st with buckets := addToBucket st.buckets st.current l } := by
  simp [sectionStep, h]

theorem sectionFold_inv (dn : String) :
    ∀ (ls : List Line) (st : SecState),
      (bucketKeys st.buckets).Nodup →
      (∀ k ∈ bucketKeys st.buckets, k ∈ st.sections) →
      st.current ∈ st.sections →
      (bucketKeys (ls.foldl (sectionStep dn) st).buckets).Nodup ∧
      (∀ k ∈ bucketKeys (ls.foldl (sectionStep dn) st).buckets,
        k ∈ (ls.foldl (sectionStep dn) st).sections) := by
  intro ls
  induction ls with
  | nil => intro st h1 h2 _; exact ⟨h1, h2⟩
  | cons l t ih =>
    intro st h1 h2 h3
    rw [List.foldl_cons]
    by_cases hs : l.lineType = LineType.sect
    · rw [sectionStep_sect dn st l hs]
      refine ih _ h1 ?_ ?_
      · intro k hk
        exact List.mem_append_left _ (h2 k hk)
      · exact List.mem_append_right _ (List.mem_singleton.mpr rfl)
    · rw [sectionStep_other dn st l hs]
      refine ih _ ?_ ?_ h3
      · rw [bucketKeys_addToBucket]
        by_cases hc : st.current ∈ bucketKeys st.buckets
        · rw [if_pos hc]; exact h1
        · rw [if_neg hc]
          rw [List.nodup_append]
          exact ⟨h1, List.nodup_singleton _, by
            intro a ha hb
            rw [List.mem_singleton] at hb
            subst hb
            exact hc ha⟩
      · intro k hk
        rw [bucketKeys_addToBucket] at hk
        by_cases hc : st.current ∈ bucketKeys st.buckets
        · rw [if_pos hc] at hk
          exact h2 k hk
        · rw [if_neg hc] at hk
          rcases List.mem_append.mp hk with h4 | h4
          · exact h2 k h4
          · rw [List.mem_singleton] at h4
            subst h4
            exact h3

theorem sectionFold_sum (dn : String) :
    ∀ (ls : List Line) (st : SecState),
      sumBuckets (ls.foldl (sectionStep dn) st).buckets =
        sumBuckets st.buckets + cardSumLines ls := by
  intro ls
  induction ls with
  | nil => intro st; simp [cardSumLines]
  | cons l t ih =>
    intro st
    rw [List.foldl_cons]
    have hsum : cardSumLines (l :: t) = cardContribution l + cardSumLines t := by
      simp [cardSumLines]
    rw [hsum]
    by_cases hs : l.lineType = LineType.sect
    · rw [sectionStep_sect dn st l hs, ih]
      have hc0 : cardContribution l = 0 := by
        simp [cardContribution, isCardLine_false_of_sect hs]
      show sumBuckets st.buckets + cardSumLines t = _
      rw [hc0]
      omega
    · rw [sectionStep_other dn st l hs, ih]
      show sumBuckets (addToBucket st.buckets st.current l) + cardSumLines t = _
      rw [sumBuckets_addToBucket]
      omega

theorem sectionFold_pred (dn : String) (P : Line → Prop) :
    ∀ (ls : List Line) (st : SecState),
      (∀ l ∈ ls, P l) →
      pairsAll (fun pr => ∀ x ∈ pr.2, P x) st.buckets →
      pairsAll (fun pr => ∀ x ∈ pr.2, P x) (ls.foldl (sectionStep dn) st).buckets := by
  intro ls
  induction ls with
  | nil => intro st _ hst; exact hst
  | cons l t ih =>
    intro st hls hst
    rw [List.foldl_cons]
    by_cases hs : l.lineType = LineType.sect
    · rw [sectionStep_sect dn st l hs]
      exact ih _ (fun x hx => hls x (List.mem_cons_of_mem _ hx)) hst
    · rw [sectionStep_other dn st l hs]
      exact ih _ (fun x hx => hls x (List.mem_cons_of_mem _ hx))
        (linesAll_addToBucket st.buckets st.current l hst (hls l (List.mem_cons_self _ _)))

theorem groupBySections_props (ls : List Line) (dn : String) :
    (bucketKeys (groupBySections ls dn).2).Nodup ∧
    (∀ k ∈ bucketKeys (groupBySections ls dn).2, k ∈ (groupBySections ls dn).1) ∧
    sumBuckets (groupBySections ls dn).2 = cardSumLines ls ∧
    ∀ (P : Line → Prop), (∀ l ∈ ls, P l) →
      pairsAll (fun pr => ∀ x ∈ pr.2, P x) (groupBySections ls dn).2 := by
  have hsum : sumBuckets (groupBySections ls dn).2 = cardSumLines ls := by
    show sumBuckets (ls.foldl (sectionStep dn) (initialSecState ls dn)).buckets = _
    rw [sectionFold_sum]
    have : sumBuckets (initialSecState ls dn).buckets = 0 := by
      cases ls with
      | nil => rfl
      | cons l t =>
        by_cases hs : l.lineType = LineType.sect
        · simp [initialSecState, hs, sumBuckets]
        · simp [initialSecState, hs, sumBuckets]
    omega
  have hpred : ∀ (P : Line → Prop), (∀ l ∈ ls, P l) →
      pairsAll (fun pr => ∀ x ∈ pr.2, P x) (groupBySections ls dn).2 := by
    intro P hP
    show pairsAll _ (ls.foldl (sectionStep dn) (initialSecState ls dn)).buckets
    refine sectionFold_pred dn P ls _ hP ?_
    have hempty : (initialSecState ls dn).buckets = [] := by
      cases ls with
      | nil => rfl
      | cons l t =>
        by_cases hs : l.lineType = LineType.sect
        · simp [initialSecState, hs]
        · simp [initialSecState, hs]
    rw [hempty]
    intro pr hpr
    exact absurd hpr (List.not_mem_nil pr)
  have hinv : (bucketKeys (ls.foldl (sectionStep dn) (initialSecState ls dn)).buckets).Nodup ∧
      (∀ k ∈ bucketKeys (ls.foldl (sectionStep dn) (initialSecState ls dn)).buckets,
        k ∈ (ls.foldl (sectionStep dn) (initialSecState ls dn)).sections) := by
    cases ls with
    | nil =>
      constructor
      · exact List.nodup_nil
      · intro k hk
        exact absurd hk (List.not_mem_nil k)
    | cons l t =>
      by_cases hs : l.lineType = LineType.sect
      · have hinit : initialSecState (l :: t) dn =
            { current := dn, sections := [], buckets := [] } := by
          simp [initialSecState, hs]
        rw [hinit, List.foldl_cons, sectionStep_sect dn _ l hs]
        refine sectionFold_inv dn t _ ?_ ?_ ?_
        · exact List.nodup_nil
        · intro k hk
          exact absurd hk (List.not_mem_nil k)
        · exact List.mem_append_right _ (List.mem_singleton.mpr rfl)
      · have hinit : initialSecState (l :: t) dn =
            { current := dn, sections := [dn], buckets := [] } := by
          simp [initialSecState, hs]
        rw [hinit]
        refine sectionFold_inv dn (l :: t) _ ?_ ?_ ?_
        · exact List.nodup_nil
        · intro k hk
          exact absurd hk (List.not_mem_nil k)
        · exact List.mem_singleton.mpr rfl
  exact ⟨hinv.1, hinv.2, hsum, hpred⟩

theorem extractLoop_no_cmdr :
    ∀ (secs : List String) (m nm0 : List (String × List Line)) (cs0 : List Line)
      (res : List Line × List (String × List Line)),
      pairsAll (fun pr => ∀ x ∈ pr.2, x.lineType ≠ LineType.commander) m →
      extractLoop m secs (cs0, nm0) = some res →
      res.1 = cs0 ∧
      ∀ k, assocLookup res.2 k =
        if k ∈ secs then assocLookup m k else assocLookup nm0 k := by
  intro secs
  induction secs with
  | nil =>
    intro m nm0 cs0 res hm hres
    obtain rfl : (cs0, nm0) = res := Option.some.inj hres
    refine ⟨rfl, fun k => ?_⟩
    rw [if_neg (List.not_mem_nil k)]
  | cons s rest ih =>
    intro m nm0 cs0 res hm hres
    rw [show extractLoop m (s :: rest) (cs0, nm0) =
          (match assocLookup m s with
           | none => none
           | some b =>
             extractLoop m rest
               (cs0 ++ b.filter isCommanderLine,
                assocSet nm0 s (b.filter (fun l => !isCommanderLine l)))) from rfl] at hres
    cases hb : assocLookup m s with
    | none =>
      rw [hb] at hres
      exact Option.noConfusion hres
    | some b =>
      rw [hb] at hres
      dsimp only at hres
      have hmem : (s, b) ∈ m := assocLookup_mem m s b hb
      have hbfree : ∀ x ∈ b, x.lineType ≠ LineType.commander := hm (s, b) hmem
      have hnone : b.filter isCommanderLine = [] := by
        rw [List.filter_eq_nil_iff]
        intro a ha hcmd
        exact hbfree a ha (isCommanderLine_type hcmd)
      have hall : b.filter (fun l => !isCommanderLine l) = b := by
        rw [List.filter_eq_self]
        intro a ha
        simp [isCommanderLine_false (hbfree a ha)]
      rw [hnone, hall, List.append_nil] at hres
      obtain ⟨h1, h2⟩ := ih m (assocSet nm0 s b) cs0 res hm hres
      refine ⟨h1, fun k => ?_⟩
      rw [h2 k]
      by_cases hk : k ∈ rest
      · rw [if_pos hk, if_pos (List.mem_cons_of_mem _ hk)]
      · rw [if_neg hk]
        by_cases hks : k = s
        · subst hks
          rw [if_pos (List.mem_cons_self _ _), lookup_assocSet, if_pos rfl]
          exact hb.symm
        · rw [if_neg (by
              intro hmem2
              rcases List.mem_cons.mp hmem2 with e | e
              · exact hks e
              · exact hk e), lookup_assocSet, if_neg hks]

theorem extractCommanders_no_cmdr (secs0 : List String) (m : List (String × List Line))
    (hm : pairsAll (fun pr => ∀ x ∈ pr.2, x.lineType ≠ LineType.commander) m)
    (secs2 : List String) (m2 : List (String × List Line))
    (hres : extractCommanders secs0 m = some (secs2, m2)) :
    secs2 = secs0 ∧ ∀ k ∈ secs0, assocLookup m2 k = assocLookup m k := by
  have hstep : extractCommanders secs0 m =
      (match extractLoop m secs0 ([], []) with
       | none => none
       | some (cs, nm) =>
         if cs.isEmpty then some (secs0, nm)
         else some (("Commander") :: secs0, assocSet nm ("Commander") cs)) := rfl
  cases hloop : extractLoop m secs0 ([], []) with
  | none =>
    rw [hstep, hloop] at hres
    exact Option.noConfusion hres
  | some r =>
    obtain ⟨cs, nm⟩ := r
    obtain ⟨h1, h2⟩ := extractLoop_no_cmdr secs0 m [] [] (cs, nm) hm hloop
    have hcs : cs = [] := h1
    subst hcs
    have hred : extractCommanders secs0 m = some (secs0, nm) := by
      rw [hstep, hloop]
      rfl
    rw [hred] at hres
    have hpair : (secs0, nm) = (secs2, m2) := Option.some.inj hres
    have e1 : secs0 = secs2 := congrArg Prod.fst hpair
    have e2 : nm = m2 := congrArg Prod.snd hpair
    constructor
    · exact e1.symm
    · intro k hk
      rw [← e2]
      have h2k : assocLookup nm k =
          if k ∈ secs0 then assocLookup m k
          else assocLookup ([] : List (String × List Line)) k := h2 k
      rw [h2k, if_pos hk]

theorem statsStep_totalCards (d : List (String × CardData)) (st : DeckStatistics) (l : Line) :
    (statsStep d st l).totalCards = st.totalCards + statCount l := by
  unfold statsStep statCount
  by_cases hc : (isCardLine l && !(l.cardName == "") && !(l.cardCount == 0)) = true
  · rw [if_pos hc, if_pos hc]
    cases hd : assocLookup d (nameToId l.cardName) with
    | none => rfl
    | some cd =>
      dsimp only
      split
      · rfl
      · split
        · rfl
        · rfl
  · rw [if_neg hc, if_neg hc]
    omega

theorem calcStats_totalCards (d : List (String × CardData)) :
    ∀ (ls : List Line) (st : DeckStatistics),
      (ls.foldl (statsStep d) st).totalCards = st.totalCards + (ls.map statCount).sum := by
  intro ls
  induction ls with
  | nil => intro st; simp
  | cons l t ih =>
    intro st
    rw [List.foldl_cons, ih, statsStep_totalCards, List.map_cons, List.sum_cons]
    omega

theorem statCount_eq_cardContribution {l : Line}
    (h : l.lineType = LineType.card → l.cardName ≠ "") :
    statCount l = cardContribution l := by
  by_cases hc : isCardLine l = true
  · have hname : l.cardName ≠ "" := h (isCardLine_type hc)
    by_cases hcnt : l.cardCount = 0
    · simp [statCount, cardContribution, hc, hname, hcnt]
    · simp [statCount, cardContribution, hc, hname, hcnt]
  · have hc2 : isCardLine l = false := by simpa using hc
    simp [statCount, cardContribution, hc2]

theorem sum_lookupTotal_cons :
    ∀ (secs : List String) (k : String) (b : List Line) (m2 : List (String × List Line)),
      k ∈ secs → secs.Nodup → k ∉ bucketKeys m2 →
      (secs.map (lookupTotal ((k, b) :: m2))).sum
        = sectionTotalCount b + (secs.map (lookupTotal m2)).sum := by
  intro secs
  induction secs with
  | nil => intro k b m2 hk; exact absurd hk (List.not_mem_nil k)
  | cons s rest ih =>
    intro k b m2 hk hnd hkm
    rw [List.map_cons, List.map_cons, List.sum_cons, List.sum_cons]
    by_cases hsk : s = k
    · subst hsk
      have hhead : lookupTotal ((s, b) :: m2) s = sectionTotalCount b := by
        simp [lookupTotal, assocLookup]
      have hs_rest : s ∉ rest := (List.nodup_cons.mp hnd).1
      have htail : (rest.map (lookupTotal ((s, b) :: m2))).sum
          = (rest.map (lookupTotal m2)).sum := by
        apply sum_map_congr
        intro a ha
        have hne : ¬ s = a := fun e => hs_rest (e ▸ ha)
        unfold lookupTotal
        rw [show assocLookup ((s, b) :: m2) a = assocLookup m2 a from by
              simp [assocLookup, hne]]
      have hh2 : lookupTotal m2 s = 0 := by
        unfold lookupTotal
        rw [lookup_none_of_not_mem_keys m2 s hkm]
        rfl
      rw [hhead, htail, hh2]
      omega
    · have hne : ¬ k = s := fun e => hsk e.symm
      have hhead : lookupTotal ((k, b) :: m2) s = lookupTotal m2 s := by
        unfold lookupTotal
        rw [show assocLookup ((k, b) :: m2) s = assocLookup m2 s from by
              simp [assocLookup, hne]]
      have hk_rest : k ∈ rest := by
        rcases List.mem_cons.mp hk with e | h4
        · exact absurd e.symm hsk
        · exact h4
      rw [hhead, ih k b m2 hk_rest (List.nodup_cons.mp hnd).2 hkm]
      omega

theorem sum_lookupTotal_eq_sumBuckets :
    ∀ (m : List (String × List Line)) (secs : List String),
      secs.Nodup → (bucketKeys m).Nodup → (∀ k ∈ bucketKeys m, k ∈ secs) →
      (secs.map (lookupTotal m)).sum = sumBuckets m := by
  intro m
  induction m with
  | nil =>
    intro secs _ _ _
    have hz : ∀ s ∈ secs, lookupTotal ([] : List (String × List Line)) s = 0 := by
      intro s _
      simp [lookupTotal, assocLookup, sectionTotalCount]
    rw [sum_map_congr secs _ (fun _ => 0) hz]
    have : ∀ (l : List String), (l.map (fun _ => (0 : Nat))).sum = 0 := by
      intro l
      induction l with
      | nil => rfl
      | cons a t iht => simp [iht]
    rw [this secs]
    rfl
  | cons p m2 ih =>
    intro secs hnd hknd hsub
    obtain ⟨k, b⟩ := p
    have hk : k ∈ secs := hsub k (by simp [bucketKeys])
    have hkeys : bucketKeys ((k, b) :: m2) = k :: bucketKeys m2 := by
      simp [bucketKeys]
    have hkm2 : k ∉ bucketKeys m2 := by
      rw [hkeys] at hknd
      exact (List.nodup_cons.mp hknd).1
    rw [sum_lookupTotal_cons secs k b m2 hk hnd hkm2]
    rw [ih secs hnd (by rw [hkeys] at hknd; exact (List.nodup_cons.mp hknd).2)
      (fun q hq => hsub q (by rw [hkeys]; exact List.mem_cons_of_mem _ hq))]
    simp [sumBuckets]

/-- C6 amended: in the default decklist pipeline (sectioning followed by
commander extraction, no grouping or sorting), for every input whose parsed
lines contain no Commander line, whose Card lines all have nonempty names,
and whose section-name order has no duplicated names, the sum over all
sections of the per-section card totals equals the statistics engine's
`totalCards`.  The hypotheses are forced: a Card line with an empty parsed
name counts in the section totals but not in `totalCards`, and a duplicated
heading name makes the rendering loop process its bucket once per
occurrence. -/
theorem C6_agg_stats (ls : List Line) (d : List (String × CardData)) (dn : String)
    (secs : List String) (m2 : List (String × List Line))
    (hres : extractCommanders (groupBySections ls dn).1 (groupBySections ls dn).2
      = some (secs, m2))
    (hnc : ∀ l ∈ ls, l.lineType ≠ LineType.commander)
    (hnm : ∀ l ∈ ls, l.lineType = LineType.card → l.cardName ≠ "")
    (hnd : secs.Nodup) :
    overallAggTotal secs m2 = (calculateDeckStatistics ls d).totalCards := by
  obtain ⟨hknd, hksub, hsum, hpred⟩ := groupBySections_props ls dn
  have hcmdfree := hpred (fun l => l.lineType ≠ LineType.commander) hnc
  obtain ⟨he, hlook⟩ := extractCommanders_no_cmdr (groupBySections ls dn).1
    (groupBySections ls dn).2 hcmdfree secs m2 hres
  subst he
  have step1 : overallAggTotal (groupBySections ls dn).1 m2
      = ((groupBySections ls dn).1.map (lookupTotal (groupBySections ls dn).2)).sum := by
    apply sum_map_congr
    intro s hs
    unfold lookupTotal
    rw [hlook s hs]
  have step2 : ((groupBySections ls dn).1.map (lookupTotal (groupBySections ls dn).2)).sum
      = sumBuckets (groupBySections ls dn).2 :=
    sum_lookupTotal_eq_sumBuckets (groupBySections ls dn).2 (groupBySections ls dn).1
      hnd hknd hksub
  have step3 : (calculateDeckStatistics ls d).totalCards = (ls.map statCount).sum := by
    show ((ls.foldl (statsStep d) initialStats)).totalCards = _
    rw [calcStats_totalCards]
    have h0 : initialStats.totalCards = 0 := rfl
    rw [h0, Nat.zero_add]
  have step4 : (ls.map statCount).sum = cardSumLines ls := by
    apply sum_map_congr
    intro l hl
    exact statCount_eq_cardContribution (hnm l hl)
  rw [step3, step4]
  rw [show overallAggTotal (groupBySections ls dn).1 m2
      = ((groupBySections ls dn).1.map (lookupTotal m2)).sum from rfl] at step1 ⊢
  rw [step1, step2, hsum]

/-- C6 witness: `C6_agg_stats` applied to the concrete two-card source
where both totals are 3. -/
theorem C6_agg_stats_witness :
    extractCommanders (groupBySections w6Parsed DEFAULT_DECK_SECTION_NAME).1
        (groupBySections w6Parsed DEFAULT_DECK_SECTION_NAME).2 = some (w6Secs, w6M) ∧
    overallAggTotal w6Secs w6M = (calculateDeckStatistics w6Parsed []).totalCards ∧
    overallAggTotal w6Secs w6M = 3 :=
  ⟨by decide,
   C6_agg_stats w6Parsed [] DEFAULT_DECK_SECTION_NAME w6Secs w6M (by decide)
     (by decide) (by decide) (by decide),
   by decide⟩

/-! ## Claim C6 counterexample -/

/-- C6 counterexample: the single-line source `"3 "` (a count with an empty
name) contains no Commander lines, yet the aggregator's section totals sum
to 3 while the statistics engine, whose guard requires a truthy card name,
reports `totalCards = 0`. -/
theorem C6_counterexample :
    (∀ l ∈ c6Parsed, l.lineType ≠ LineType.commander) ∧
    extractCommanders (groupBySections c6Parsed DEFAULT_DECK_SECTION_NAME).1
        (groupBySections c6Parsed DEFAULT_DECK_SECTION_NAME).2 =
      some (["Deck:"], c6M) ∧
    overallAggTotal ["Deck:"] c6M = 3 ∧
    (calculateDeckStatistics c6Parsed []).totalCards = 0 := by
  refine ⟨by decide, by decide, by decide, by decide⟩

end Mtg
